import Mathlib

/-
  Verification development for the HireIQ career-assistant backend
  (src/python-backend/career_agent.py).

  The Python functions are shallowly embedded as executable Lean
  definitions.  Python floats are modelled by exact rationals (all the
  arithmetic the claims touch is decided identically by the two
  semantics: the only literals involved are 40, 25, 20, 3.3, 0.5, and
  the divisions of small naturals, and the truncation results compared
  by the claims are the same in both models).  Python strings are ASCII
  in every computation the claims quantify over, so str.lower is
  modelled by Char.toLower.  External libraries (the Gemini client,
  nltk.word_tokenize, wordnet) are modelled as oracle parameters, and
  the unspecified iteration order of Python sets is modelled by an
  enumeration parameter constrained to be a permutation.
-/

namespace HireIQ

/-! ### Basic string helpers (Python `str` operations on ASCII text) -/

/-- Python whitespace set used by `str.strip` and the regex class. -/
def isPySpace (c : Char) : Bool :=
  c == ' ' || c == '\t' || c == '\n' || c == '\r' || c == '\x0b' || c == '\x0c'

/-- Python `str.lower` on the ASCII strings involved here. -/
def lc (s : String) : String := ⟨s.data.map Char.toLower⟩

/-- Substring test on character lists: Python `needle in hay`. -/
def listIn (needle hay : List Char) : Bool :=
  hay.tails.any (fun t => needle.isPrefixOf t)

/-- Python substring containment `needle in hay`. -/
def subStr (needle hay : String) : Bool := listIn needle.data hay.data

/-- Drop trailing characters satisfying a predicate. -/
def dropTrail (p : Char → Bool) (l : List Char) : List Char :=
  (l.reverse.dropWhile p).reverse

/-- Python `str.strip()` on character lists. -/
def stripChars (l : List Char) : List Char :=
  dropTrail isPySpace (l.dropWhile isPySpace)

/-- Python `str.strip()`. -/
def pyStrip (s : String) : String := ⟨stripChars s.data⟩

/-- Fuelled worker for Python `str.replace` on character lists
(leftmost, non-overlapping); the fuel is an upper bound on the number of
characters left, so the structural recursion mirrors the linear scan. -/
def replaceFuel (pat rep : List Char) : Nat → List Char → List Char
  | _, [] => []
  | 0, l => l
  | fuel + 1, c :: rest =>
    if pat ≠ [] && pat.isPrefixOf (c :: rest) then
      rep ++ replaceFuel pat rep fuel ((c :: rest).drop pat.length)
    else
      c :: replaceFuel pat rep fuel rest

/-- Python `str.replace` on character lists. -/
def replaceChars (pat rep l : List Char) : List Char :=
  replaceFuel pat rep l.length l

/-- Python `str.replace(pat, rep)` (both patterns non-empty here). -/
def pyReplace (s pat rep : String) : String :=
  ⟨replaceChars pat.data rep.data s.data⟩

/-- Python `str.title()`: a letter is upper-cased when the previous
character is not a letter, lower-cased otherwise. -/
def pyTitleAux : Bool → List Char → List Char
  | _, [] => []
  | prevAlpha, c :: rest =>
    (if c.isAlpha then (if prevAlpha then c.toLower else c.toUpper) else c)
      :: pyTitleAux c.isAlpha rest

/-- Python `str.title()`. -/
def pyTitle (s : String) : String := ⟨pyTitleAux false s.data⟩

/-- Python `str.upper()` on ASCII. -/
def pyUpper (s : String) : String := ⟨s.data.map Char.toUpper⟩

/-- Python slicing `s[:n]` by characters. -/
def pyTake (s : String) (n : Nat) : String := ⟨s.data.take n⟩

/-- Worker for `firstOcc`: `seen` records the elements already emitted. -/
def firstOccAux (seen : List String) : List String → List String
  | [] => []
  | a :: rest =>
    if seen.contains a then firstOccAux seen rest
    else a :: firstOccAux (a :: seen) rest

/-- Keep the first occurrence of every element (iteration order of a
Python `collections.Counter`, which preserves insertion order). -/
def firstOcc (l : List String) : List String := firstOccAux [] l

/-! ### Rational models of the Python numeric operations -/

/-- Minimum of two rationals, written out so that proofs can unfold it. -/
def pyMin (a b : ℚ) : ℚ := if a ≤ b then a else b

/-- Maximum of two rationals, written out so that proofs can unfold it. -/
def pyMax (a b : ℚ) : ℚ := if a ≤ b then b else a

/-- Minimum of two integers, written out so that proofs can unfold it. -/
def pyMinI (a b : ℤ) : ℤ := if a ≤ b then a else b

/-- Maximum of two integers, written out so that proofs can unfold it. -/
def pyMaxI (a b : ℤ) : ℤ := if a ≤ b then b else a

/-- Python `int()` applied to a real quantity: truncation toward zero. -/
def pyInt (q : ℚ) : ℤ := if 0 ≤ q then ⌊q⌋ else -⌊-q⌋

/-- Round-half-to-even on a rational, modelling Python `round`. -/
def bankerRound (q : ℚ) : ℤ :=
  let f := ⌊q⌋
  let r := q - f
  if r < 1 / 2 then f
  else if 1 / 2 < r then f + 1
  else if f % 2 = 0 then f else f + 1

/-- Python `round(x, 1)` in the rational model. -/
def round1 (q : ℚ) : ℚ := (bankerRound (10 * q) : ℚ) / 10

/-! ### ATS score (`_calculate_ats_score`, career_agent.py lines 236-299) -/

/-- The `essential_sections` list of `_calculate_ats_score`. -/
def essentialSections : List String := ["experience", "education", "skills"]

/-- The fixed `action_verbs` list of `_calculate_ats_score`. -/
def actionVerbs : List String :=
  ["managed", "developed", "created", "implemented", "designed",
   "led", "built", "achieved", "improved", "optimized"]

/-- The score breakdown mapping stored under `"breakdown"`. -/
structure AtsBreakdown where
  baseScore : ℚ
  keywordMatching : ℚ
  skillsMatching : ℚ
  formatting : ℚ
  actionVerbsScore : ℚ
  deriving Repr, DecidableEq

/-- The `ats_score` mapping produced by `_calculate_ats_score`. -/
structure AtsResult where
  score : ℤ
  breakdown : AtsBreakdown
  feedback : String
  recommendations : List String
  deriving Repr, DecidableEq

/-- `_get_ats_recommendations` (lines 301-318). -/
def atsRecommendations (score : ℤ) (keywordMatches skillsMatches : Nat) :
    List String :=
  if score < 70 then
    (if keywordMatches < 5 then
      ["Add more keywords from the job description to your resume"] else [])
    ++ (if skillsMatches < 3 then
      ["Include more technical skills mentioned in the job posting"] else [])
    ++ ["Use standard section headings: Experience, Education, Skills",
        "Include quantifiable achievements with numbers and metrics"]
  else if score < 80 then
    ["Fine-tune your resume by adding 2-3 more relevant keywords",
     "Ensure all critical skills from the job description are mentioned"]
  else
    ["Your resume is well-optimized! Consider minor keyword additions"]

/-- `_calculate_ats_score` (lines 236-299).  `resumeSkills` is the
`resume_skills` list of the stage-2 resume analysis. -/
def calcAtsScore (resumeText : String)
    (extractedKeywords extractedSkills resumeSkills : List String) :
    AtsResult :=
  let rt := lc resumeText
  let jobKeywords := extractedKeywords.map lc
  let jobSkills := extractedSkills.map lc
  let baseScore : ℚ := 40
  let keywordMatches := (jobKeywords.filter (fun kw => subStr kw rt)).length
  let keywordScore : ℚ :=
    pyMin ((keywordMatches : ℚ) / (max jobKeywords.length 1 : ℕ) * 25) 25
  let resumeSkillSet := (resumeSkills.map lc).dedup
  let jobSkillsSet := jobSkills.dedup
  let skillsMatches :=
    (jobSkillsSet.filter (fun s => resumeSkillSet.contains s)).length
  let skillsScore : ℚ :=
    pyMin ((skillsMatches : ℚ) / (max jobSkillsSet.length 1 : ℕ) * 20) 20
  let formatScore : ℚ :=
    pyMin (((essentialSections.filter (fun s => subStr s rt)).length : ℚ)
         * (33 / 10)) 10
  let actionScore : ℚ :=
    pyMin (((actionVerbs.filter (fun v => subStr v rt)).length : ℚ) * (1 / 2)) 5
  let totalScore :=
    baseScore + keywordScore + skillsScore + formatScore + actionScore
  let score : ℤ := pyMaxI 0 (pyMinI 100 (pyInt totalScore))
  let feedback :=
    if 80 ≤ score then
      "Excellent match! Your resume aligns well with ATS requirements and the job description."
    else if 70 ≤ score then
      "Good match! Your resume passes most ATS filters. Consider adding more relevant keywords."
    else if 60 ≤ score then
      "Fair match. Your resume may pass initial ATS screening but needs optimization."
    else
      "Needs improvement. Optimize your resume with more relevant keywords and proper formatting."
  { score := score
    breakdown :=
      { baseScore := baseScore
        keywordMatching := round1 keywordScore
        skillsMatching := round1 skillsScore
        formatting := round1 formatScore
        actionVerbsScore := round1 actionScore }
    feedback := feedback
    recommendations := atsRecommendations score keywordMatches skillsMatches }

/-! ### Python set iteration order

Python enumerates a `set` in an unspecified, hash-dependent order (it can
change between processes under hash randomisation).  Wherever the source
converts a set to a list (`list(set(...))`, `list(a - b)`), the model
applies an enumeration function `σ` to the canonical duplicate-free list
and only assumes that `σ` returns a permutation of its input. -/

/-- An admissible set-enumeration: it permutes its input list. -/
def SetEnum (σ : List String → List String) : Prop :=
  ∀ l : List String, (σ l).Perm l

/-! ### Missing skills (`_find_gaps`, lines 320-333) -/

/-- The canonical duplicate-free list underlying the Python set difference
`set(job skills) - set(resume skills)` (both sides lower-cased). -/
def gapsDiff (resumeSkills extractedSkills : List String) : List String :=
  ((extractedSkills.map lc).dedup).filter
    (fun s => !((resumeSkills.map lc).contains s))

/-- `_find_gaps` (lines 320-333): `list(job_skills - resume_skills)[:8]`,
with the set enumerated by `σ`. -/
def findGaps (σ : List String → List String)
    (resumeSkills extractedSkills : List String) : List String :=
  (σ (gapsDiff resumeSkills extractedSkills)).take 8

/-! ### Keyword repetition analysis
    (`_analyze_keyword_repetitions`, lines 335-399) -/

/-- The fixed `target_words` set of action verbs and buzzwords
(lines 344-360). -/
def targetWords : List String :=
  ["developed", "built", "created", "designed", "implemented", "managed",
   "led", "supervised", "coordinated", "improved", "enhanced", "optimized",
   "worked", "collaborated", "contributed", "participated", "used",
   "utilized", "applied", "established", "maintained", "operated",
   "handled", "executed", "delivered", "achieved", "accomplished",
   "completed", "performed", "conducted", "organized", "analyzed",
   "evaluated", "assessed", "reviewed", "monitored", "tracked",
   "increased", "decreased", "reduced", "streamlined", "automated",
   "integrated",
   "responsible", "experience", "skills", "project", "team", "client",
   "customer", "solution", "system", "application", "platform",
   "framework", "tool", "process", "workflow", "strategy", "initiative",
   "program", "product", "service", "support", "assistance", "help",
   "guidance", "training", "development", "improvement", "enhancement",
   "optimization", "implementation"]

/-- The curated `tech_synonyms` table of `_get_synonyms`
(lines 406-482). -/
def techSynonyms : List (String × List String) :=
  [("developed", ["built", "created", "designed", "implemented", "engineered", "constructed", "produced", "crafted"]),
   ("built", ["developed", "created", "constructed", "implemented", "engineered", "assembled", "established"]),
   ("created", ["developed", "built", "designed", "established", "formed", "generated", "produced", "crafted"]),
   ("designed", ["architected", "planned", "structured", "conceptualized", "developed", "created", "formulated"]),
   ("implemented", ["executed", "deployed", "integrated", "established", "installed", "developed", "built"]),
   ("managed", ["led", "supervised", "coordinated", "directed", "oversaw", "handled", "administered", "guided"]),
   ("led", ["managed", "directed", "guided", "supervised", "coordinated", "headed", "spearheaded"]),
   ("supervised", ["managed", "led", "oversaw", "directed", "coordinated", "guided", "mentored"]),
   ("coordinated", ["managed", "organized", "facilitated", "orchestrated", "synchronized", "arranged", "directed"]),
   ("improved", ["enhanced", "optimized", "upgraded", "refined", "boosted", "strengthened", "advanced"]),
   ("enhanced", ["improved", "optimized", "upgraded", "refined", "strengthened", "augmented", "elevated"]),
   ("optimized", ["improved", "enhanced", "refined", "streamlined", "maximized", "upgraded", "fine-tuned"]),
   ("worked", ["collaborated", "contributed", "participated", "engaged", "involved", "operated", "functioned"]),
   ("collaborated", ["partnered", "cooperated", "worked together", "teamed up", "coordinated", "contributed"]),
   ("contributed", ["participated", "assisted", "supported", "aided", "helped", "collaborated", "engaged"]),
   ("participated", ["engaged", "contributed", "involved", "took part", "collaborated", "assisted"]),
   ("used", ["utilized", "employed", "applied", "leveraged", "implemented", "operated", "adopted"]),
   ("utilized", ["used", "employed", "applied", "leveraged", "implemented", "adopted", "exploited"]),
   ("applied", ["used", "utilized", "employed", "implemented", "exercised", "practiced", "executed"]),
   ("established", ["founded", "created", "set up", "initiated", "instituted", "formed", "launched"]),
   ("maintained", ["sustained", "preserved", "kept", "upheld", "supported", "continued", "managed"]),
   ("operated", ["managed", "ran", "controlled", "handled", "administered", "executed", "functioned"]),
   ("handled", ["managed", "dealt with", "processed", "addressed", "controlled", "operated", "administered"]),
   ("executed", ["implemented", "performed", "carried out", "accomplished", "delivered", "completed"]),
   ("delivered", ["provided", "completed", "achieved", "accomplished", "executed", "produced", "supplied"]),
   ("achieved", ["accomplished", "attained", "realized", "completed", "delivered", "secured", "obtained"]),
   ("accomplished", ["achieved", "completed", "fulfilled", "attained", "realized", "executed", "delivered"]),
   ("completed", ["finished", "accomplished", "concluded", "delivered", "fulfilled", "executed"]),
   ("performed", ["executed", "carried out", "conducted", "accomplished", "delivered", "completed"]),
   ("conducted", ["performed", "carried out", "executed", "managed", "led", "facilitated", "organized"]),
   ("organized", ["arranged", "structured", "coordinated", "planned", "managed", "systematized"]),
   ("analyzed", ["examined", "evaluated", "assessed", "reviewed", "studied", "investigated", "researched"]),
   ("evaluated", ["assessed", "analyzed", "reviewed", "examined", "appraised", "judged", "measured"]),
   ("assessed", ["evaluated", "analyzed", "reviewed", "examined", "appraised", "gauged", "measured"]),
   ("reviewed", ["examined", "analyzed", "evaluated", "assessed", "inspected", "audited", "studied"]),
   ("monitored", ["tracked", "observed", "supervised", "watched", "oversaw", "surveyed", "controlled"]),
   ("tracked", ["monitored", "followed", "traced", "observed", "recorded", "measured", "documented"]),
   ("increased", ["boosted", "enhanced", "improved", "elevated", "raised", "amplified", "expanded"]),
   ("decreased", ["reduced", "lowered", "minimized", "cut", "diminished", "lessened", "scaled down"]),
   ("reduced", ["decreased", "minimized", "lowered", "cut", "scaled down", "diminished", "streamlined"]),
   ("streamlined", ["optimized", "simplified", "improved", "refined", "enhanced", "automated", "standardized"]),
   ("automated", ["streamlined", "systematized", "mechanized", "computerized", "optimized", "digitized"]),
   ("integrated", ["incorporated", "combined", "merged", "unified", "connected", "linked", "synchronized"]),
   ("responsible", ["accountable", "in charge of", "oversaw", "managed", "handled", "led", "tasked with"]),
   ("experience", ["expertise", "background", "proficiency", "knowledge", "skills", "familiarity", "competency"]),
   ("skills", ["abilities", "competencies", "expertise", "proficiencies", "capabilities", "talents", "qualifications"]),
   ("project", ["initiative", "program", "application", "system", "solution", "product", "endeavor"]),
   ("team", ["group", "unit", "squad", "crew", "department", "organization", "collective"]),
   ("client", ["customer", "user", "stakeholder", "patron", "consumer", "end-user", "account"]),
   ("customer", ["client", "user", "consumer", "patron", "end-user", "stakeholder", "account"]),
   ("solution", ["resolution", "answer", "approach", "method", "system", "strategy", "implementation"]),
   ("system", ["platform", "framework", "infrastructure", "architecture", "solution", "application"]),
   ("application", ["system", "software", "program", "platform", "tool", "solution", "product"]),
   ("platform", ["system", "framework", "infrastructure", "environment", "foundation", "base"]),
   ("framework", ["structure", "foundation", "platform", "architecture", "system", "methodology"]),
   ("tool", ["utility", "instrument", "application", "resource", "software", "platform", "system"]),
   ("process", ["procedure", "workflow", "method", "approach", "protocol", "system", "operation"]),
   ("workflow", ["process", "procedure", "operation", "pipeline", "system", "methodology", "protocol"]),
   ("strategy", ["approach", "plan", "method", "technique", "framework", "methodology", "blueprint"]),
   ("initiative", ["project", "program", "effort", "campaign", "endeavor", "venture", "undertaking"]),
   ("program", ["project", "initiative", "system", "application", "software", "platform", "solution"]),
   ("product", ["solution", "application", "system", "offering", "service", "platform", "tool"]),
   ("service", ["offering", "solution", "support", "assistance", "facility", "resource", "capability"]),
   ("support", ["assistance", "help", "aid", "service", "backup", "maintenance", "guidance"]),
   ("assistance", ["support", "help", "aid", "guidance", "service", "backup", "facilitation"]),
   ("help", ["assistance", "support", "aid", "guidance", "service", "facilitation", "backup"]),
   ("guidance", ["direction", "leadership", "mentoring", "coaching", "assistance", "support", "advice"]),
   ("training", ["education", "instruction", "coaching", "development", "learning", "mentoring", "preparation"]),
   ("development", ["creation", "building", "construction", "programming", "coding", "engineering", "advancement"]),
   ("improvement", ["enhancement", "optimization", "upgrade", "refinement", "advancement", "betterment"]),
   ("enhancement", ["improvement", "upgrade", "optimization", "refinement", "advancement", "augmentation"]),
   ("optimization", ["improvement", "enhancement", "refinement", "streamlining", "fine-tuning", "maximization"]),
   ("implementation", ["execution", "deployment", "installation", "integration", "establishment", "realization"])]

/-- Look up a word in the curated synonym table. -/
def curatedSynonyms (word : String) : List String :=
  match techSynonyms.lookup word with
  | some l => l
  | none => []

/-- The WordNet lemma filter of `_get_synonyms` (lines 493-503): a lemma
name (underscores already replaced by spaces) is kept when it differs
from the word case-insensitively, has length above 2, and is not among
the curated synonyms. -/
def wordnetKeep (word : String) (curated : List String) (syn : String) :
    Bool :=
  lc syn ≠ lc word && 2 < syn.length && !(curated.contains syn)

/-- `_get_synonyms` (lines 401-510).  `wn` is the WordNet oracle: the
stream of lemma names of `wordnet.synsets(word)` in iteration order,
with underscores replaced by spaces.  The source collects WordNet
synonyms only while the curated list has fewer than 6 entries and stops
as soon as curated plus collected reach 8. -/
def getSynonyms (wn : String → List String) (word : String) : List String :=
  let curated := (curatedSynonyms word).take 6
  let wnSyns :=
    if curated.length < 6 then
      ((wn word).filter (wordnetKeep word curated)).take (8 - curated.length)
    else []
  (curated ++ wnSyns.take (8 - curated.length)).take 8

/-- The result mapping of `_analyze_keyword_repetitions`:
`repetitions` maps each overused word to its `count` and synonym list. -/
structure RepResult where
  status : String
  message : String
  repetitions : List (String × Nat × List String)
  totalIssues : Nat
  recommendation : String
  deriving Repr, DecidableEq

/-- Membership test against `target_words` together with the
`len(token) > 3` guard of line 365. -/
def isTargetToken (t : String) : Bool :=
  targetWords.contains t && 3 < t.length

/-- The `repetitions` dictionary of line 369: each target token (length
above 3) occurring more than twice, with its count, in `Counter`
insertion order (order of first occurrence). -/
def repetitionPairs (tokens : List String) : List (String × Nat) :=
  let counted := tokens.filter isTargetToken
  ((firstOcc counted).filter (fun w => 2 < counted.count w)).map
    (fun w => (w, counted.count w))

/-- The `synonym_suggestions` dictionary of lines 372-379: repeated
words that have at least one synonym, with count and up to 6 synonyms. -/
def repSuggestions (wn : String → List String) (tokens : List String) :
    List (String × Nat × List String) :=
  (repetitionPairs tokens).filterMap (fun p =>
    let syns := getSynonyms wn p.1
    if syns ≠ [] then some (p.1, p.2, syns.take 6) else none)

/-- `_analyze_keyword_repetitions` (lines 335-399) over an
already-tokenized resume (`tokens` models
`nltk.word_tokenize(resume_text.lower())`). -/
def analyzeRepTokens (wn : String → List String) (tokens : List String) :
    RepResult :=
  let suggestions := repSuggestions wn tokens
  if suggestions ≠ [] then
    { status := "repetitions_found"
      message := "🔄 Found " ++ toString suggestions.length ++
        " overused action words. Consider using synonyms to make your resume more engaging and professional."
      repetitions := suggestions
      totalIssues := suggestions.length
      recommendation := "Varying your action verbs demonstrates stronger writing skills and keeps hiring managers engaged." }
  else
    { status := "perfect_variety"
      message := "🌟 Excellent word variety! Your resume demonstrates strong professional writing with diverse action verbs and buzzwords."
      repetitions := []
      totalIssues := 0
      recommendation := "Your resume shows great linguistic variety - this helps keep hiring managers engaged throughout." }

/-- Stage 5 on raw text: `tok` is the `nltk.word_tokenize` oracle,
applied to the lower-cased resume text as in line 340. -/
def analyzeRepetitions (tok : String → List String)
    (wn : String → List String) (resumeText : String) : RepResult :=
  analyzeRepTokens wn (tok (lc resumeText))

/-! ### Response cleaning (`_clean_ai_content`, lines 1067-1072, and
    `_clean_text_content`, lines 1074-1098)

Each Python `re.sub` is modelled by a bespoke left-to-right scanner with
the same leftmost-match, greedy/lazy semantics as the pattern concerned.
Scanners that can consume more than one character per step take a fuel
argument (instantiated with the input length) so that they stay
structurally recursive. -/

/-- Length of the run of copies of `m` at the head of the list. -/
def runLen (m : Char) : List Char → Nat
  | [] => 0
  | c :: rest => if c = m then runLen m rest + 1 else 0

/-- Strip the leading fence of the pattern `^```json\s*`. -/
def stripJsonFence (l : List Char) : List Char :=
  if ("```json".data).isPrefixOf l then
    (l.drop 7).dropWhile isPySpace
  else l

/-- Strip the trailing fence of the pattern `\s*```$`, where the Python
`$` matches at the end of the string or just before a final newline. -/
def stripTrailFence (l : List Char) : List Char :=
  if ("```".data).isSuffixOf l then
    dropTrail isPySpace (l.dropLast.dropLast.dropLast)
  else if ("```\n".data).isSuffixOf l then
    dropTrail isPySpace (l.dropLast.dropLast.dropLast.dropLast) ++ ['\n']
  else l

/-- `_clean_ai_content` (lines 1067-1072): strip the ```json fences,
delete every `*` and `#`, and strip surrounding whitespace. -/
def cleanAI (s : String) : String :=
  ⟨stripChars ((stripTrailFence (stripJsonFence s.data)).filter
      (fun c => c ≠ '*' && c ≠ '#'))⟩

/-- Lazy-content search for an emphasis pattern `m{1,k}(.*?)m{1,k}`:
scan for the closing marker, extending the content one character at a
time (never across a newline); the closing run is consumed greedily up
to `k`.  Returns the content and the remainder after the closing. -/
def emphContent (m : Char) (k : Nat) : List Char → Option (List Char × List Char)
  | [] => none
  | c :: rest =>
    if c = m then
      some ([], (c :: rest).drop (min (runLen m (c :: rest)) k))
    else if c = '\n' then none
    else
      match emphContent m k rest with
      | some (content, after) => some (c :: content, after)
      | none => none

/-- Attempt an emphasis match at the current position: the opening run
is tried greedily from `min(run, k)` down to 1 markers. -/
def emphTry (m : Char) (k : Nat) (l : List Char) :
    Option (List Char × List Char) :=
  let rec tryOpen : Nat → Option (List Char × List Char)
    | 0 => none
    | j + 1 =>
      match emphContent m k (l.drop (j + 1)) with
      | some r => some r
      | none => tryOpen j
  tryOpen (min (runLen m l) k)

/-- One `re.sub` pass replacing `m{1,k}(.*?)m{1,k}` by the content. -/
def emphSub (m : Char) (k : Nat) : Nat → List Char → List Char
  | _, [] => []
  | 0, l => l
  | fuel + 1, c :: rest =>
    if c = m then
      match emphTry m k (c :: rest) with
      | some (content, after) => content ++ emphSub m k fuel after
      | none => c :: emphSub m k fuel rest
    else c :: emphSub m k fuel rest

/-- One `re.sub` pass deleting `#{1,6}\s*`. -/
def headerSub : Nat → List Char → List Char
  | _, [] => []
  | 0, l => l
  | fuel + 1, c :: rest =>
    if c = '#' then
      headerSub fuel (((c :: rest).drop (min (runLen '#' (c :: rest)) 6)).dropWhile isPySpace)
    else c :: headerSub fuel rest

/-- Attempt a link/image match `!?\[([^\]]+)\]\([^\)]+\)` starting at a
`[`; returns the bracket content and the remainder after the `)`. -/
def linkTry (l : List Char) : Option (List Char × List Char) :=
  match l with
  | '[' :: rest =>
    let content := rest.takeWhile (fun c => c ≠ ']')
    let rest₁ := rest.dropWhile (fun c => c ≠ ']')
    if content ≠ [] then
      match rest₁ with
      | ']' :: '(' :: rest₂ =>
        let url := rest₂.takeWhile (fun c => c ≠ ')')
        let rest₃ := rest₂.dropWhile (fun c => c ≠ ')')
        if url ≠ [] then
          match rest₃ with
          | ')' :: rest₄ => some (content, rest₄)
          | _ => none
        else none
      | _ => none
    else none
  | _ => none

/-- One `re.sub` pass replacing `!?\[([^\]]+)\]\([^\)]+\)` by the
bracket content. -/
def linkSub : Nat → List Char → List Char
  | _, [] => []
  | 0, l => l
  | fuel + 1, c :: rest =>
    if c = '!' then
      match linkTry rest with
      | some (content, after) => content ++ linkSub fuel after
      | none => c :: linkSub fuel rest
    else if c = '[' then
      match linkTry (c :: rest) with
      | some (content, after) => content ++ linkSub fuel after
      | none => c :: linkSub fuel rest
    else c :: linkSub fuel rest

/-- Attempt a list-marker match `\s*X\s+` (with `X` drawn from
`markers`) at a line start: maximal whitespace, one marker character,
then at least one whitespace character consumed greedily.  Returns the
remainder and whether the last consumed character was a newline. -/
def markerTry (markers : List Char) (l : List Char) :
    Option (List Char × Bool) :=
  let ws := l.takeWhile isPySpace
  let rest₁ := l.drop ws.length
  match rest₁ with
  | c :: rest₂ =>
    if markers.contains c then
      let ws₂ := rest₂.takeWhile isPySpace
      if ws₂ ≠ [] then some (rest₂.drop ws₂.length, ws₂.getLast? = some '\n')
      else none
    else none
  | [] => none

/-- Attempt a numbered-list match `\s*\d+\.\s+` at a line start. -/
def numberTry (l : List Char) : Option (List Char × Bool) :=
  let ws := l.takeWhile isPySpace
  let rest₁ := l.drop ws.length
  let digits := rest₁.takeWhile Char.isDigit
  let rest₂ := rest₁.drop digits.length
  if digits ≠ [] then
    match rest₂ with
    | '.' :: rest₃ =>
      let ws₂ := rest₃.takeWhile isPySpace
      if ws₂ ≠ [] then some (rest₃.drop ws₂.length, ws₂.getLast? = some '\n')
      else none
    | _ => none
  else none

/-- One multiline `re.sub` pass deleting a line-anchored marker pattern;
`att` tells whether the scanner currently sits at a `^` position. -/
def lineAnchorSub (try₀ : List Char → Option (List Char × Bool)) :
    Nat → Bool → List Char → List Char
  | _, _, [] => []
  | 0, _, l => l
  | fuel + 1, att, c :: rest =>
    if att then
      match try₀ (c :: rest) with
      | some (after, nl) => lineAnchorSub try₀ fuel nl after
      | none => c :: lineAnchorSub try₀ fuel (c = '\n') rest
    else c :: lineAnchorSub try₀ fuel (c = '\n') rest

/-- One `re.sub` pass collapsing `\n{3,}` to two newlines. -/
def newline3Sub : Nat → List Char → List Char
  | _, [] => []
  | 0, l => l
  | fuel + 1, c :: rest =>
    if c = '\n' then
      let r := runLen '\n' (c :: rest)
      if 3 ≤ r then '\n' :: '\n' :: newline3Sub fuel ((c :: rest).drop r)
      else c :: newline3Sub fuel rest
    else c :: newline3Sub fuel rest

/-- One `re.sub` pass collapsing any run of 2 or more whitespace
characters to a single space. -/
def spaces2Sub : Nat → List Char → List Char
  | _, [] => []
  | 0, l => l
  | fuel + 1, c :: rest =>
    if isPySpace c then
      let ws := (c :: rest).takeWhile isPySpace
      if 2 ≤ ws.length then ' ' :: spaces2Sub fuel ((c :: rest).drop ws.length)
      else c :: spaces2Sub fuel rest
    else c :: spaces2Sub fuel rest

/-- The display special characters removed at lines 1095-1096. -/
def specialChars : List Char := ['•', '→', '▪', '✓', '✗', '⭐']

/-- `_clean_text_content` (lines 1074-1098). -/
def cleanText (s : String) : String :=
  if s = "" then ""
  else
    let l₀ := s.data
    let l₁ := emphSub '*' 2 l₀.length l₀
    let l₂ := headerSub l₁.length l₁
    let l₃ := emphSub '`' 3 l₂.length l₂
    let l₄ := linkSub l₃.length l₃
    let l₅ := emphSub '_' 2 l₄.length l₄
    let l₆ := lineAnchorSub (markerTry ['-', '*', '+']) l₅.length true l₅
    let l₇ := lineAnchorSub numberTry l₆.length true l₆
    let l₈ := newline3Sub l₇.length l₇
    let l₉ := spaces2Sub l₈.length l₈
    let l₁₀ := l₉.filter (fun c => !(specialChars.contains c))
    ⟨stripChars l₁₀⟩

/-! ### Resume re-composer (`generate_ats_resume` and the
    `_enhance_*_section` helpers, lines 1342-1394 and 2360-2592)

The AI completion client is the oracle `ai : String → Except String
String`: `.error` models `llm.invoke` raising, `.ok` models the returned
response text. -/

/-- Maximal digit sequences occurring in a character list; `cur` is the
reversed run currently being read. -/
def drAux (cur : List Char) : List Char → List (List Char)
  | [] => if cur = [] then [] else [cur.reverse]
  | c :: rest =>
    if c.isDigit then drAux (c :: cur) rest
    else (if cur = [] then [] else [cur.reverse]) ++ drAux [] rest

/-- The maximal digit sequences of a character list, in order. -/
def digitRuns (l : List Char) : List (List Char) := drAux [] l

/-- The prefix of a character list before the first comma: Python
`s.split(',')[0]`. -/
def beforeComma (s : String) : String := ⟨s.data.takeWhile (fun c => c ≠ ',')⟩

/-- Join a list of strings with a separator: Python `sep.join(...)`. -/
def joinWith (sep : String) : List String → String
  | [] => ""
  | [a] => a
  | a :: rest => a ++ sep ++ joinWith sep rest

/-- An experience entry of the parsed resume, as consumed by
`_enhance_experience_section`; `none` models an absent dictionary key. -/
structure ExpEntry where
  title : Option String := none
  company : Option String := none
  companyName : Option String := none
  location : Option String := none
  city : Option String := none
  state : Option String := none
  startDate : Option String := none
  endDate : Option String := none
  currentlyWorking : Option Bool := none
  description : Option String := none
  workSummery : Option String := none
  achievements : Option (List String) := none
  deriving Repr, DecidableEq

/-- A formatted experience entry of the re-composed resume. -/
structure EnhancedExp where
  title : String
  companyName : String
  city : String
  state : String
  startDate : String
  endDate : String
  currentlyWorking : Bool
  workSummery : String
  deriving Repr, DecidableEq

/-- `exp.get('description', exp.get('workSummery', ''))` (line 2367). -/
def origDescription (exp : ExpEntry) : String :=
  exp.description.getD (exp.workSummery.getD "")

/-- The `full_content` assembled at lines 2371-2373: the original
description followed by the bulleted achievements. -/
def fullContent (exp : ExpEntry) : String :=
  let od := origDescription exp
  let achs := exp.achievements.getD []
  od ++ (if achs ≠ [] then
    "\n\n" ++ joinWith "\n" (achs.map (fun a => "• " ++ a)) else "")

/-- The enhancement prompt built at lines 2376-2399. -/
def mkExperiencePrompt (jd : String) (exp : ExpEntry) : String :=
  "\n            ENHANCE this work experience description to be more ATS-friendly and impactful while preserving all original achievements and numbers.\n            \n            JOB TITLE: "
  ++ exp.title.getD ""
  ++ "\n            COMPANY: "
  ++ exp.company.getD (exp.companyName.getD "")
  ++ "\n            \n            ORIGINAL EXPERIENCE:\n            "
  ++ fullContent exp
  ++ "\n            \n            JOB REQUIREMENTS FOR REFERENCE:\n            "
  ++ pyTake jd 400
  ++ "\n            \n            ENHANCEMENT RULES:\n            1. Keep ALL original achievements, metrics, and numbers intact\n            2. Use strong action verbs (developed, implemented, optimized, etc.)\n            3. Add relevant keywords from job description naturally\n            4. Make bullet points more specific and results-oriented\n            5. Quantify impact wherever possible\n            6. DO NOT fabricate new achievements or numbers\n            7. Format as HTML with <br> for line breaks between bullet points\n            8. Keep it concise but impactful (3-5 bullet points max)\n            \n            Return ONLY the enhanced experience description with HTML formatting:\n            "

/-- Enhancement of one experience entry (the body of the loop at lines
2366-2423).  On an AI failure, or an AI response that strips to fewer
than 20 characters, the work summary falls back to the original content
with newlines turned into `<br>`. -/
def enhanceOneExperience (ai : String → Except String String) (jd : String)
    (exp : ExpEntry) : EnhancedExp :=
  let full := fullContent exp
  let fallback := pyReplace full "\n" "<br>"
  let enhanced :=
    match ai (mkExperiencePrompt jd exp) with
    | .error _ => fallback
    | .ok resp =>
      let e := pyStrip resp
      if e = "" || e.length < 20 then fallback else e
  { title := exp.title.getD ""
    companyName := exp.company.getD (exp.companyName.getD "")
    city := exp.city.getD
      (match exp.location with
       | some loc => if loc ≠ "" then beforeComma loc else ""
       | none => "")
    state := exp.state.getD ""
    startDate := exp.startDate.getD ""
    endDate := exp.endDate.getD "Present"
    currentlyWorking :=
      exp.currentlyWorking.getD (lc (exp.endDate.getD "") = "present")
    workSummery := enhanced }

/-- `_enhance_experience_section` (lines 2360-2425): at most the first
three entries are enhanced. -/
def enhanceExperienceSection (ai : String → Except String String)
    (jd : String) (exps : List ExpEntry) : List EnhancedExp :=
  if exps = [] then [] else (exps.take 3).map (enhanceOneExperience ai jd)

/-- An education entry of the parsed resume. -/
structure EduEntry where
  institution : Option String := none
  universityName : Option String := none
  degree : Option String := none
  major : Option String := none
  field : Option String := none
  startDate : Option String := none
  endDate : Option String := none
  coursework : Option String := none
  description : Option String := none
  deriving Repr, DecidableEq

/-- A formatted education entry. -/
structure EnhancedEdu where
  universityName : String
  degree : String
  major : String
  startDate : String
  endDate : String
  description : String
  deriving Repr, DecidableEq

/-- `_enhance_education_section` (lines 2427-2444): formats every entry,
with no cap. -/
def enhanceEducationSection (edus : List EduEntry) : List EnhancedEdu :=
  if edus = [] then []
  else edus.map (fun edu =>
    { universityName := edu.institution.getD (edu.universityName.getD "")
      degree := edu.degree.getD ""
      major := edu.major.getD (edu.field.getD "")
      startDate := edu.startDate.getD ""
      endDate := edu.endDate.getD ""
      description := edu.coursework.getD (edu.description.getD "") })

/-- A formatted skill entry (the rating is dropped for ATS output). -/
structure SkillRec where
  name : String
  deriving Repr, DecidableEq

/-- `_enhance_skills_section` (lines 2446-2469): original skills are
kept, skills from the analysis are appended without duplicates, and the
result is capped at 20. -/
def enhanceSkillsSection (originalSkills analyzedSkills technologies :
    List String) : List SkillRec :=
  let allSkills :=
    (analyzedSkills ++ technologies).foldl
      (fun acc s => if s ≠ "" && !(acc.contains s) then acc ++ [s] else acc)
      originalSkills
  (allSkills.take 20).map (fun s => { name := s })

/-- A project entry of the parsed resume. -/
structure ProjEntry where
  name : Option String := none
  description : Option String := none
  technologies : Option (List String) := none
  achievements : Option (List String) := none
  url : Option String := none
  deriving Repr, DecidableEq

/-- A formatted project entry. -/
structure EnhancedProj where
  name : String
  description : String
  technologies : List String
  achievements : List String
  deriving Repr, DecidableEq

/-- `_enhance_projects_section` (lines 2471-2503): at most 2 projects,
each with at most 8 technologies and 3 achievements; the description is
capitalised and given a final period. -/
def enhanceProjectsSection (projs : List ProjEntry) : List EnhancedProj :=
  if projs = [] then []
  else (projs.take 2).map (fun proj =>
    let od := proj.description.getD ""
    let e₁ :=
      match od.data with
      | [] => od
      | c :: rest => if !c.isUpper then ⟨c.toUpper :: rest⟩ else od
    let e₂ :=
      if e₁ ≠ "" && !(['.'].isSuffixOf e₁.data) then e₁ ++ "." else e₁
    { name := proj.name.getD ""
      description := e₂
      technologies := (proj.technologies.getD []).take 8
      achievements := (proj.achievements.getD []).take 3 })

/-- A certification entry of the parsed resume. -/
structure CertEntry where
  name : Option String := none
  title : Option String := none
  organization : Option String := none
  date : Option String := none
  description : Option String := none
  deriving Repr, DecidableEq

/-- A formatted certification entry. -/
structure EnhancedCert where
  name : String
  organization : String
  date : String
  description : String
  deriving Repr, DecidableEq

/-- `_enhance_certifications_section` (lines 2505-2520): capped at 4. -/
def enhanceCertificationsSection (certs : List CertEntry) :
    List EnhancedCert :=
  if certs = [] then []
  else (certs.take 4).map (fun cert =>
    { name := cert.name.getD (cert.title.getD "")
      organization := cert.organization.getD ""
      date := cert.date.getD ""
      description := cert.description.getD "" })

/-- An award entry of the parsed resume. -/
structure AwardEntry where
  title : Option String := none
  name : Option String := none
  organization : Option String := none
  date : Option String := none
  description : Option String := none
  deriving Repr, DecidableEq

/-- A formatted award entry. -/
structure EnhancedAward where
  title : String
  organization : String
  date : String
  description : String
  deriving Repr, DecidableEq

/-- `_enhance_awards_section` (lines 2522-2537): capped at 3. -/
def enhanceAwardsSection (awards : List AwardEntry) : List EnhancedAward :=
  if awards = [] then []
  else (awards.take 3).map (fun award =>
    { title := award.title.getD (award.name.getD "")
      organization := award.organization.getD ""
      date := award.date.getD ""
      description := award.description.getD "" })

/-- A language item of the parsed resume: the source accepts either a
plain string or a name/proficiency mapping. -/
inductive LangItem where
  | plain (s : String)
  | entry (name : Option String) (proficiency : Option String)
  deriving Repr, DecidableEq

/-- A formatted language entry. -/
structure EnhancedLang where
  name : String
  proficiency : String
  deriving Repr, DecidableEq

/-- `_enhance_languages_section` (lines 2539-2558): capped at 5. -/
def enhanceLanguagesSection (langs : List LangItem) : List EnhancedLang :=
  if langs = [] then []
  else (langs.take 5).map (fun lang =>
    match lang with
    | .plain s => { name := s, proficiency := "Fluent" }
    | .entry n p => { name := n.getD "", proficiency := p.getD "Fluent" })

/-- A volunteer entry of the parsed resume. -/
structure VolEntry where
  role : Option String := none
  organization : Option String := none
  date : Option String := none
  description : Option String := none
  deriving Repr, DecidableEq

/-- A formatted volunteer entry. -/
structure EnhancedVol where
  role : String
  organization : String
  date : String
  description : String
  deriving Repr, DecidableEq

/-- `_enhance_volunteer_section` (lines 2560-2575): capped at 3. -/
def enhanceVolunteerSection (vols : List VolEntry) : List EnhancedVol :=
  if vols = [] then []
  else (vols.take 3).map (fun vol =>
    { role := vol.role.getD ""
      organization := vol.organization.getD ""
      date := vol.date.getD ""
      description := vol.description.getD "" })

/-- A publication entry of the parsed resume. -/
structure PubEntry where
  title : Option String := none
  venue : Option String := none
  date : Option String := none
  description : Option String := none
  deriving Repr, DecidableEq

/-- A formatted publication entry. -/
structure EnhancedPub where
  title : String
  venue : String
  date : String
  description : String
  deriving Repr, DecidableEq

/-- `_enhance_publications_section` (lines 2577-2592): capped at 3. -/
def enhancePublicationsSection (pubs : List PubEntry) : List EnhancedPub :=
  if pubs = [] then []
  else (pubs.take 3).map (fun pub =>
    { title := pub.title.getD ""
      venue := pub.venue.getD ""
      date := pub.date.getD ""
      description := pub.description.getD "" })

/-- The sections of the parsed resume consumed by the section-building
part of `generate_ats_resume`. -/
structure ParsedResume where
  summary : String := ""
  experience : List ExpEntry := []
  education : List EduEntry := []
  skills : List String := []
  projects : List ProjEntry := []
  certifications : List CertEntry := []
  awards : List AwardEntry := []
  languages : List LangItem := []
  volunteer : List VolEntry := []
  publications : List PubEntry := []
  deriving Repr, DecidableEq

/-- The section fields of the re-composed ATS resume document; a `none`
section is one the source never adds because the parsed section was
empty (`if parsed_resume.get(...)`).  The contact-header fields
(name, phone, email, theme colour) carry no caps and are plumbing
outside every claim, so they are not modelled. -/
structure AtsResumeDoc where
  experience : Option (List EnhancedExp)
  education : Option (List EnhancedEdu)
  skills : Option (List SkillRec)
  projects : Option (List EnhancedProj)
  certifications : Option (List EnhancedCert)
  awards : Option (List EnhancedAward)
  languages : Option (List EnhancedLang)
  volunteer : Option (List EnhancedVol)
  publications : Option (List EnhancedPub)
  deriving Repr, DecidableEq

/-- The section-building part of `generate_ats_resume` (lines
1364-1394).  `analyzedSkills` and `technologies` come from the
`analysis_data` mapping handed to `_enhance_skills_section`. -/
def recomposeSections (ai : String → Except String String) (jd : String)
    (parsed : ParsedResume) (analyzedSkills technologies : List String) :
    AtsResumeDoc :=
  { experience :=
      if parsed.experience ≠ [] then
        some (enhanceExperienceSection ai jd parsed.experience) else none
    education :=
      if parsed.education ≠ [] then
        some (enhanceEducationSection parsed.education) else none
    skills :=
      if parsed.skills ≠ [] then
        some (enhanceSkillsSection parsed.skills analyzedSkills technologies)
      else none
    projects :=
      if parsed.projects ≠ [] then
        some (enhanceProjectsSection parsed.projects) else none
    certifications :=
      if parsed.certifications ≠ [] then
        some (enhanceCertificationsSection parsed.certifications) else none
    awards :=
      if parsed.awards ≠ [] then
        some (enhanceAwardsSection parsed.awards) else none
    languages :=
      if parsed.languages ≠ [] then
        some (enhanceLanguagesSection parsed.languages) else none
    volunteer :=
      if parsed.volunteer ≠ [] then
        some (enhanceVolunteerSection parsed.volunteer) else none
    publications :=
      if parsed.publications ≠ [] then
        some (enhancePublicationsSection parsed.publications) else none }

/-- The section caps of §4.4, as one decidable check over a re-composed
document: at most 3 experience entries, 2 projects each with at most 3
achievement highlights, 20 skills, 4 certifications, 3 awards, 5
languages, 3 volunteer entries and 3 publications. -/
def capsOk (doc : AtsResumeDoc) : Bool :=
  decide ((doc.experience.getD []).length ≤ 3) &&
  decide ((doc.projects.getD []).length ≤ 2) &&
  ((doc.projects.getD []).all (fun p => decide (p.achievements.length ≤ 3))) &&
  decide ((doc.skills.getD []).length ≤ 20) &&
  decide ((doc.certifications.getD []).length ≤ 4) &&
  decide ((doc.awards.getD []).length ≤ 3) &&
  decide ((doc.languages.getD []).length ≤ 5) &&
  decide ((doc.volunteer.getD []).length ≤ 3) &&
  decide ((doc.publications.getD []).length ≤ 3)

/-! ### The all-fallback pipeline (`analyze` with every AI call failing)

`analyze` (lines 1306-1340) threads one state through the ten stages.
When every `llm.invoke` raises, each AI stage records one error string
and substitutes its deterministic fallback, so the whole run is the
composition of the fallback computations below.  `em i` is the
`str(e)` text of the i-th failing stage, `σ` the set-enumeration
order, `tok` the `nltk.word_tokenize` oracle and `wn` the WordNet
oracle. -/

/-- Python word character (`\w`) on ASCII text. -/
def isWordChar (c : Char) : Bool := c.isAlphanum || c = '_'

/-- `re.findall(r'\b[A-Z][a-zA-Z]*\b', text)`: maximal alphabetic runs
that start with an upper-case letter at a word boundary and are followed
by a word boundary.  `prevW` records whether the previous character was
a word character. -/
def capWordsAux : Nat → Bool → List Char → List (List Char)
  | _, _, [] => []
  | 0, _, _ => []
  | fuel + 1, prevW, c :: rest =>
    if !prevW && c.isUpper then
      let run := c :: rest.takeWhile Char.isAlpha
      let after := rest.dropWhile Char.isAlpha
      match after with
      | [] => [run]
      | d :: _ =>
        if isWordChar d then capWordsAux fuel true after
        else run :: capWordsAux fuel true after
    else
      capWordsAux fuel (isWordChar c) rest

/-- The capitalized words of a string, per the fallback regex. -/
def capWords (s : String) : List String :=
  (capWordsAux s.data.length false s.data).map (fun l => ⟨l⟩)

/-- The fixed `technical_terms` list of `_fallback_keyword_extraction`
(line 1229). -/
def technicalTerms : List String :=
  ["API", "REST", "SQL", "NoSQL", "AWS", "Docker", "Git", "CI/CD"]

/-- The keyword list built by `_fallback_keyword_extraction`
(lines 1224-1233) before deduplication. -/
def fallbackKeywordList (text : String) : List String :=
  capWords text ++
    technicalTerms.filter (fun t => subStr (lc t) (lc text))

/-- `_fallback_keyword_extraction` (lines 1224-1233):
`list(set(keywords))[:15]` with the set enumerated by `σ`. -/
def fallbackKeywordExtraction (σ : List String → List String)
    (text : String) : List String :=
  (σ (fallbackKeywordList text).dedup).take 15

/-- The fixed `common_skills` list of `_fallback_skill_extraction`
(lines 1237-1240). -/
def commonSkills : List String :=
  ["Python", "JavaScript", "Java", "React", "Node.js", "SQL",
   "AWS", "Docker", "Git", "MongoDB", "PostgreSQL", "Redis"]

/-- `_fallback_skill_extraction` (lines 1235-1246). -/
def fallbackSkillExtraction (text : String) : List String :=
  commonSkills.filter (fun s => subStr (lc s) (lc text))

/-- The resume analysis mapping produced by stage 2. -/
structure RAnalysis where
  resumeSkills : List String
  technologies : List String
  experienceLevel : String
  certifications : List String
  hasProjects : Bool
  domains : List String
  softSkills : List String
  achievements : List String
  yearsOfExperience : String
  deriving Repr, DecidableEq

/-- The `skill_patterns` list of `_enhanced_fallback_analysis`
(lines 1254-1259). -/
def skillPatterns : List String :=
  ["python", "java", "javascript", "react", "angular", "vue",
   "node.js", "express", "django", "flask", "spring", "sql",
   "mongodb", "postgresql", "redis", "aws", "azure", "gcp",
   "docker", "kubernetes", "git", "jenkins", "ci/cd"]

/-- The `tech_patterns` list of `_enhanced_fallback_analysis`
(lines 1266-1270). -/
def techPatterns : List String :=
  ["html", "css", "bootstrap", "tailwind", "sass", "less",
   "webpack", "babel", "typescript", "graphql", "rest api",
   "microservices", "agile", "scrum", "devops"]

/-- `_enhanced_fallback_analysis` (lines 1248-1304). -/
def enhancedFallbackAnalysis (resumeText : String) : RAnalysis :=
  let tl := lc resumeText
  let technicalSkills :=
    (skillPatterns.filter (fun s => subStr s tl)).map pyTitle
  let technologies :=
    (techPatterns.filter (fun t => subStr t tl)).map
      (fun t => if t.length ≤ 4 then pyUpper t else pyTitle t)
  let experienceLevel :=
    if ["senior", "lead", "principal", "architect"].any
        (fun t => subStr t tl) then "senior"
    else if ["mid-level", "intermediate", "3+ years", "4+ years",
             "5+ years"].any (fun t => subStr t tl) then "mid-level"
    else "junior"
  let certifications :=
    (["certified", "certification", "aws certified",
      "microsoft certified", "google cloud"].filter
        (fun c => subStr c tl)).map pyTitle
  let hasProjects :=
    ["project", "built", "developed", "created", "implemented"].any
      (fun t => subStr t tl)
  { resumeSkills := technicalSkills
    technologies := technologies
    experienceLevel := experienceLevel
    certifications := certifications
    hasProjects := hasProjects
    domains := []
    softSkills := []
    achievements := []
    yearsOfExperience := "unknown" }

/-- One learning resource record. -/
structure ResourceRec where
  title : String
  url : String
  type : String
  isFree : Bool
  deriving Repr, DecidableEq

/-- One roadmap item of the stage-6 fallback. -/
structure RoadmapItem where
  skill : String
  order : Nat
  time : String
  concepts : List String
  prerequisites : List String
  resources : List ResourceRec
  deriving Repr, DecidableEq

/-- The stage-6 fallback roadmap (lines 556-570): one generic item per
missing skill, capped at 6 by line 516. -/
def fallbackRoadmap (missingSkills : List String) : List RoadmapItem :=
  (missingSkills.take 6).enum.map (fun p =>
    { skill := p.2
      order := p.1 + 1
      time := "3-5 weeks"
      concepts := ["Core", "Intermediate", "Advanced"]
      prerequisites := []
      resources := [] })

/-- The `resource_map` of `_create_resources` (lines 581-617). -/
def resourceMap : List (String × List ResourceRec) :=
  [("react",
    [{ title := "React Official Tutorial", url := "https://react.dev/learn", type := "Documentation", isFree := true },
     { title := "React Crash Course - YouTube", url := "https://www.youtube.com/watch?v=w7ejDZ8SWv8", type := "Video", isFree := true },
     { title := "FreeCodeCamp React Course", url := "https://www.freecodecamp.org/news/free-react-course-2022/", type := "Course", isFree := true }]),
   ("javascript",
    [{ title := "MDN JavaScript Guide", url := "https://developer.mozilla.org/en-US/docs/Web/JavaScript/Guide", type := "Documentation", isFree := true },
     { title := "JavaScript.info Complete Tutorial", url := "https://javascript.info/", type := "Course", isFree := true },
     { title := "FreeCodeCamp JavaScript Algorithms", url := "https://www.freecodecamp.org/learn/javascript-algorithms-and-data-structures/", type := "Course", isFree := true }]),
   ("python",
    [{ title := "Python Official Tutorial", url := "https://docs.python.org/3/tutorial/", type := "Documentation", isFree := true },
     { title := "Python for Everybody - Coursera", url := "https://www.coursera.org/specializations/python", type := "Course", isFree := true },
     { title := "Automate the Boring Stuff", url := "https://automatetheboringstuff.com/", type := "Book", isFree := true }]),
   ("node.js",
    [{ title := "Node.js Official Guides", url := "https://nodejs.org/en/docs/guides/", type := "Documentation", isFree := true },
     { title := "Node.js Tutorial - W3Schools", url := "https://www.w3schools.com/nodejs/", type := "Course", isFree := true },
     { title := "FreeCodeCamp Node.js Course", url := "https://www.freecodecamp.org/news/free-8-hour-node-express-course/", type := "Video", isFree := true }]),
   ("sql",
    [{ title := "W3Schools SQL Tutorial", url := "https://www.w3schools.com/sql/", type := "Course", isFree := true },
     { title := "SQLBolt Interactive Lessons", url := "https://sqlbolt.com/", type := "Interactive", isFree := true },
     { title := "FreeCodeCamp SQL Course", url := "https://www.freecodecamp.org/news/sql-and-databases-explained/", type := "Course", isFree := true }]),
   ("aws",
    [{ title := "AWS Free Tier Training", url := "https://aws.amazon.com/training/free/", type := "Course", isFree := true },
     { title := "AWS Cloud Practitioner Essentials", url := "https://aws.amazon.com/training/course-descriptions/cloud-practitioner-essentials/", type := "Course", isFree := true },
     { title := "FreeCodeCamp AWS Course", url := "https://www.freecodecamp.org/news/pass-the-aws-cloud-practitioner-certification-with-this-free-10-hour-course/", type := "Video", isFree := true }]),
   ("docker",
    [{ title := "Docker Official Tutorial", url := "https://docs.docker.com/get-started/", type := "Documentation", isFree := true },
     { title := "Play with Docker", url := "https://labs.play-with-docker.com/", type := "Interactive", isFree := true },
     { title := "Docker Crash Course - YouTube", url := "https://www.youtube.com/watch?v=pTFZFxd4hOI", type := "Video", isFree := true }])]

/-- `_create_resources` (lines 574-648): curated or generic resources
for the first five missing skills.  Note that the lookup key strips
spaces and dots, so the `node.js` table entry can never be hit. -/
def createResources (missingSkills : List String) :
    List (String × List ResourceRec) :=
  (missingSkills.take 5).map (fun skill =>
    let key := pyReplace (pyReplace (lc skill) " " "") "." ""
    match resourceMap.lookup key with
    | some rs => (skill, rs)
    | none =>
      (skill,
       [{ title := "Learn " ++ skill ++ " - FreeCodeCamp"
          url := "https://www.freecodecamp.org/news/search/?query=" ++
            pyReplace skill " " "%20"
          type := "Course", isFree := true },
        { title := skill ++ " Tutorial - YouTube"
          url := "https://www.youtube.com/results?search_query=" ++
            pyReplace skill " " "+" ++ "+tutorial+2024"
          type := "Video", isFree := true },
        { title := "Official " ++ skill ++ " Documentation"
          url := "https://www.google.com/search?q=" ++
            pyReplace skill " " "+" ++ "+official+documentation+guide"
          type := "Documentation", isFree := true }]))

/-- One suggested portfolio project. -/
structure ProjectRec where
  title : String
  description : String
  skillsCovered : List String
  difficulty : String
  estimatedTime : String
  implementationSteps : List String
  keyFeatures : List String
  challenges : List String
  techStack : List String
  portfolioValue : String
  deriving Repr, DecidableEq

/-- The web-development fallback project (lines 745-777). -/
def webProject : ProjectRec :=
  { title := "Full-Stack Task Management Platform with Real-Time Collaboration"
    description := "Build a comprehensive task management system that allows teams to collaborate in real-time. This project demonstrates full-stack development skills by creating a responsive web application with user authentication, real-time updates using WebSockets, drag-and-drop functionality, and a RESTful API. The platform includes features like project boards, task assignments, deadline tracking, team chat, and analytics dashboard. This showcases your ability to build production-ready applications that solve real business problems."
    skillsCovered := ["React", "Node.js", "MongoDB", "WebSockets", "REST API", "Authentication"]
    difficulty := "Advanced"
    estimatedTime := "6-8 weeks"
    implementationSteps :=
      ["Step 1: Set up Git repository and initialize React frontend with Create React App",
       "Step 2: Create Node.js backend with Express and design RESTful API structure",
       "Step 3: Design and implement MongoDB database schema for users, projects, and tasks",
       "Step 4: Implement JWT-based authentication system with secure password hashing",
       "Step 5: Build React components for login, dashboard, and project boards",
       "Step 6: Implement drag-and-drop functionality using React DnD library",
       "Step 7: Add WebSocket support using Socket.io for real-time updates",
       "Step 8: Create analytics dashboard with data visualization using Chart.js",
       "Step 9: Write comprehensive tests using Jest and React Testing Library",
       "Step 10: Deploy to Heroku/AWS with CI/CD pipeline using GitHub Actions"]
    keyFeatures :=
      ["User authentication with role-based access control",
       "Real-time collaboration with instant updates",
       "Drag-and-drop task management interface",
       "Team chat and notifications system",
       "Analytics dashboard with performance metrics",
       "Mobile-responsive design"]
    challenges :=
      ["Handling real-time synchronization: Use Socket.io with proper event handling",
       "Scaling WebSocket connections: Implement Redis adapter for horizontal scaling"]
    techStack := ["React", "Node.js", "Express", "MongoDB", "Socket.io", "JWT", "Chart.js"]
    portfolioValue := "This project demonstrates full-stack expertise, real-time programming skills, and ability to build complex, production-ready applications that recruiters look for." }

/-- The data/ML fallback project (lines 780-813). -/
def mlProject : ProjectRec :=
  { title := "Intelligent Stock Market Prediction System with Sentiment Analysis"
    description := "Develop a machine learning system that predicts stock market trends by combining historical price data with real-time news sentiment analysis. This project showcases data science skills by implementing web scraping, natural language processing, time series analysis, and machine learning models. The system includes a web dashboard for visualizing predictions, backtesting results, and sentiment trends. This demonstrates your ability to work with financial data, implement ML algorithms, and create practical applications for real-world problems."
    skillsCovered := ["Python", "Machine Learning", "NLP", "Data Analysis", "Web Scraping", "API Integration"]
    difficulty := "Advanced"
    estimatedTime := "5-7 weeks"
    implementationSteps :=
      ["Step 1: Set up Python environment with pandas, scikit-learn, and TensorFlow",
       "Step 2: Build web scraper using BeautifulSoup to collect financial news",
       "Step 3: Implement sentiment analysis using NLTK or transformers library",
       "Step 4: Collect historical stock data using yfinance API",
       "Step 5: Engineer features combining price data and sentiment scores",
       "Step 6: Implement LSTM model for time series prediction",
       "Step 7: Create backtesting framework to evaluate model performance",
       "Step 8: Build Flask API to serve predictions",
       "Step 9: Develop interactive dashboard using Plotly/Dash",
       "Step 10: Deploy model with automated daily predictions"]
    keyFeatures :=
      ["Real-time news sentiment analysis",
       "LSTM-based price prediction model",
       "Interactive visualization dashboard",
       "Backtesting with performance metrics",
       "API for programmatic access",
       "Automated daily predictions"]
    challenges :=
      ["Handling financial data noise: Implement robust preprocessing and outlier detection",
       "Avoiding overfitting: Use cross-validation and regularization techniques"]
    techStack := ["Python", "TensorFlow", "Pandas", "Flask", "Plotly", "NLTK", "PostgreSQL"]
    portfolioValue := "Combines finance, ML, and web development skills - highly attractive to fintech companies and demonstrates advanced data science capabilities." }

/-- The cloud/DevOps fallback project (lines 816-849). -/
def cloudProject : ProjectRec :=
  { title := "Microservices E-Commerce Platform with Auto-Scaling Infrastructure"
    description := "Build a scalable e-commerce platform using microservices architecture deployed on Kubernetes. This project demonstrates cloud engineering skills by implementing multiple services (user management, product catalog, shopping cart, payment processing), containerizing them with Docker, and orchestrating with Kubernetes. Include features like auto-scaling, load balancing, service mesh, and comprehensive monitoring. This showcases your ability to design and implement modern cloud-native applications."
    skillsCovered := ["Docker", "Kubernetes", "AWS", "Microservices", "CI/CD", "Monitoring"]
    difficulty := "Expert"
    estimatedTime := "8-10 weeks"
    implementationSteps :=
      ["Step 1: Design microservices architecture and API contracts",
       "Step 2: Implement individual services (User, Product, Cart, Payment)",
       "Step 3: Containerize each service with Docker and optimize images",
       "Step 4: Set up local Kubernetes cluster using Minikube",
       "Step 5: Create Kubernetes manifests for deployments and services",
       "Step 6: Implement API Gateway using Kong or Istio",
       "Step 7: Set up horizontal pod autoscaling based on metrics",
       "Step 8: Implement distributed tracing with Jaeger",
       "Step 9: Create CI/CD pipeline with Jenkins/GitLab CI",
       "Step 10: Deploy to AWS EKS with monitoring using Prometheus/Grafana"]
    keyFeatures :=
      ["Microservices with independent scaling",
       "Service mesh for traffic management",
       "Distributed tracing and monitoring",
       "Auto-scaling based on load",
       "Blue-green deployment strategy",
       "Comprehensive logging with ELK stack"]
    challenges :=
      ["Managing distributed transactions: Implement Saga pattern",
       "Service discovery: Use Kubernetes DNS and service mesh"]
    techStack := ["Docker", "Kubernetes", "AWS EKS", "Istio", "Prometheus", "Grafana", "Jenkins"]
    portfolioValue := "Demonstrates advanced cloud architecture skills highly sought after by enterprises migrating to cloud-native solutions." }

/-- The generic fallback project (lines 852-885); its covered skills
start with the first three missing skills. -/
def genericProject (missingSkills : List String) : ProjectRec :=
  { title := "AI-Powered Personal Finance Manager"
    description := "Create a comprehensive personal finance management application that uses AI to provide intelligent insights and recommendations. The system tracks expenses, categorizes transactions automatically using machine learning, predicts future spending patterns, and provides personalized savings recommendations. Include features like receipt scanning with OCR, budget alerts, investment tracking, and financial goal planning. This project showcases full-stack development, AI integration, and practical problem-solving skills."
    skillsCovered := missingSkills.take 3 ++ ["Full-Stack Development", "AI Integration"]
    difficulty := "Advanced"
    estimatedTime := "6-8 weeks"
    implementationSteps :=
      ["Step 1: Design database schema for users, transactions, and financial goals",
       "Step 2: Build RESTful API with authentication and authorization",
       "Step 3: Implement transaction categorization using ML classification",
       "Step 4: Create OCR functionality for receipt scanning",
       "Step 5: Develop spending prediction model using time series analysis",
       "Step 6: Build responsive web interface with data visualizations",
       "Step 7: Implement real-time notifications for budget alerts",
       "Step 8: Add bank account integration using Plaid API",
       "Step 9: Create comprehensive testing suite",
       "Step 10: Deploy with security best practices"]
    keyFeatures :=
      ["Automatic transaction categorization",
       "Receipt scanning with OCR",
       "Spending predictions and insights",
       "Budget tracking and alerts",
       "Investment portfolio tracking",
       "Financial goal planning"]
    challenges :=
      ["Ensuring data security: Implement encryption and secure authentication",
       "Accurate OCR: Use preprocessing techniques and multiple OCR engines"]
    techStack := ["Python/Node.js", "React", "PostgreSQL", "TensorFlow", "OCR API", "Plaid API"]
    portfolioValue := "Shows ability to build practical applications that solve real problems, integrate multiple technologies, and handle sensitive data securely." }

/-- `_generate_fallback_projects` (lines 735-887): skill-conditional
projects, a generic one when nothing matched, capped at 2. -/
def fallbackProjects (missingSkills currentSkills : List String) :
    List ProjectRec :=
  let allSkills := (missingSkills ++ currentSkills).map lc
  let ps :=
    (if ["react", "javascript", "node.js", "frontend", "backend"].any
        (fun s => allSkills.contains s) then [webProject] else [])
    ++ (if ["python", "data", "machine learning", "ai", "analysis"].any
        (fun s => allSkills.contains s) then [mlProject] else [])
    ++ (if ["aws", "docker", "kubernetes", "cloud", "devops"].any
        (fun s => allSkills.contains s) then [cloudProject] else [])
  let ps := if ps = [] then [genericProject missingSkills] else ps
  ps.take 2

/-- One job recommendation. -/
structure JobPosting where
  title : String
  company : String
  location : String
  url : String
  description : String
  deriving Repr, DecidableEq

/-- The stage-9 fallback jobs (lines 933-979), keyed on the lower-cased
current skills and the experience level. -/
def fallbackJobs (currentSkills : List String) (experienceLevel : String) :
    List JobPosting :=
  if (currentSkills.map lc).contains "python" then
    [{ title := "Python Developer", company := "PyTech Solutions",
       location := "Remote",
       url := "https://remoteok.io/remote-jobs/python-developer",
       description := "Join our team building Python applications with modern frameworks" },
     { title := "Backend Engineer", company := "DataFlow Inc",
       location := "Remote",
       url := "https://weworkremotely.com/jobs/backend-engineer",
       description := "Develop scalable backend systems using Python and cloud technologies" }]
  else if (currentSkills.map lc).contains "javascript" then
    [{ title := "Frontend Developer", company := "WebCraft Studios",
       location := "Remote",
       url := "https://remoteok.io/remote-jobs/frontend-developer",
       description := "Build responsive web applications using modern JavaScript frameworks" },
     { title := "Full Stack Developer", company := "TechFlow Remote",
       location := "Remote",
       url := "https://remotive.io/remote-jobs/fullstack-developer",
       description := "Work on both frontend and backend using JavaScript technologies" }]
  else
    [{ title := pyTitle experienceLevel ++ " Software Developer",
       company := "Remote First Company", location := "Remote",
       url := "https://remoteok.io/remote-jobs",
       description := "Looking for developers to work on exciting projects remotely" }]

/-- One interview question; the optional fields are present only on
some of the fallback entries, as in the source dictionaries. -/
structure IQuestion where
  question : String
  category : String
  difficulty : Option String := none
  skillTested : Option String := none
  problemType : Option String := none
  timeLimit : Option String := none
  hints : Option (List String) := none
  sampleInput : Option String := none
  sampleOutput : Option String := none
  deriving Repr, DecidableEq

/-- Python `str(list_of_strings)`: the repr used by the keyword checks
of `_generate_fallback_interview_questions` (lines 1189-1205). -/
def reprStrList (l : List String) : String :=
  "[" ++ joinWith ", " (l.map (fun s => "\x27" ++ s ++ "\x27")) ++ "]"

/-- The per-skill coding question of lines 1109-1119. -/
def codingQuestion (i : Nat) (skill : String) : IQuestion :=
  { question := "Write a function that finds the two numbers in an array that sum to a target value. Optimize for time complexity."
    category := "Coding"
    difficulty := some (if i = 0 then "Easy" else "Medium")
    skillTested := some (skill ++ " - Array algorithms")
    problemType := some "Algorithm"
    timeLimit := some "15 minutes"
    hints := some ["Try using a hash map for O(n) solution",
                   "Think about the two-pointer technique"]
    sampleInput := some "[2, 7, 11, 15], target = 9"
    sampleOutput := some "[0, 1] (indices of numbers 2 and 7)" }

/-- The per-skill architecture question of lines 1121-1129. -/
def authQuestion (skill : String) : IQuestion :=
  { question := "Describe how you would implement authentication and authorization in a " ++ skill ++ " application. Include security best practices."
    category := "Technical"
    difficulty := some "Medium"
    skillTested := some (skill ++ " security")
    problemType := some "Architecture"
    timeLimit := some "20 minutes"
    hints := some ["Consider JWT vs session-based auth",
                   "Think about password hashing and storage"] }

/-- `_generate_fallback_interview_questions` (lines 1100-1222). -/
def fallbackInterviewQuestions (jobSkills jobKeywords : List String)
    (experienceLevel : String) : List IQuestion :=
  let perSkill :=
    if jobSkills ≠ [] then
      ((jobSkills.take 3).enum.map (fun p =>
        if ["python", "javascript", "java", "c++", "react",
            "node.js"].contains (lc p.2) then
          codingQuestion p.1 p.2
        else authQuestion p.2))
      ++ [if experienceLevel = "senior" || experienceLevel = "expert" then
            { question := "Design a scalable URL shortener service (like bit.ly) that can handle 100M URLs per day. Discuss the database schema, caching strategy, and API design."
              category := "System Design"
              difficulty := some "Hard"
              skillTested := some "System architecture and scalability"
              problemType := some "Architecture"
              timeLimit := some "45 minutes"
              hints := some ["Consider database sharding strategies",
                             "Think about caching frequently accessed URLs",
                             "Discuss load balancing approaches"] }
          else
            { question := "Explain the differences between SQL and NoSQL databases. When would you choose one over the other for a " ++ jobSkills.headD "" ++ " project?"
              category := "Technical"
              difficulty := some "Medium"
              skillTested := some "Database design"
              problemType := some "Implementation"
              timeLimit := some "15 minutes"
              hints := some ["Consider ACID properties",
                             "Think about scalability requirements"] }]
    else []
  let fixed : List IQuestion :=
    [{ question := "Implement a function to reverse a linked list. What\x27s the time and space complexity?"
       category := "Coding"
       difficulty := some "Medium"
       skillTested := some "Data structures - Linked Lists"
       problemType := some "Algorithm"
       timeLimit := some "20 minutes"
       hints := some ["Consider iterative vs recursive approach",
                      "Think about pointer manipulation"]
       sampleInput := some "1->2->3->4->5"
       sampleOutput := some "5->4->3->2->1" },
     { question := "Given a string, find the length of the longest substring without repeating characters."
       category := "Coding"
       difficulty := some "Medium"
       skillTested := some "String algorithms"
       problemType := some "Algorithm"
       timeLimit := some "25 minutes"
       hints := some ["Use sliding window technique",
                      "Track characters with a hash set"]
       sampleInput := some "abcabcbb"
       sampleOutput := some "3 (substring: abc)" },
     { question := "Debug this code: A function that should merge two sorted arrays but returns incorrect results. Identify and fix the bugs."
       category := "Technical"
       difficulty := some "Medium"
       skillTested := some "Debugging and code review"
       problemType := some "Debugging"
       timeLimit := some "15 minutes"
       hints := some ["Check array bounds", "Verify merge logic",
                      "Test edge cases"] }]
  let keywordsRepr := lc (reprStrList jobKeywords)
  let roleSpecific :=
    (if ["api", "rest", "backend"].any (fun k => subStr k keywordsRepr) then
      [{ question := "How do you ensure API security and what authentication methods have you implemented?"
         category := "Role-specific"
         difficulty := some "Medium"
         skillTested := some "API development" : IQuestion }] else [])
    ++ (if ["frontend", "ui", "ux", "react", "angular", "vue"].any
          (fun k => subStr k keywordsRepr) then
      [{ question := "How do you approach responsive design and ensure cross-browser compatibility?"
         category := "Role-specific"
         difficulty := some "Medium"
         skillTested := some "Frontend development" : IQuestion }] else [])
    ++ (if ["data", "database", "sql", "nosql"].any
          (fun k => subStr k keywordsRepr) then
      [{ question := "How do you optimize database queries for performance? Can you give an example?"
         category := "Role-specific"
         difficulty := some "Medium"
         skillTested := some "Database optimization" : IQuestion }] else [])
  let qs := perSkill ++ fixed ++ roleSpecific
  let qs := qs ++
    (if qs.length < 10 then
      [{ question := "What interests you most about this role and how does it align with your career goals?"
         category := "Role-specific"
         difficulty := some "Easy"
         skillTested := some "Role fit" : IQuestion }] else [])
  qs.take 12

/-- The `skills_analysis` sub-mapping of the final report. -/
structure SkillsAnalysis where
  missingSkills : List String
  keywordRepetitions : RepResult
  deriving Repr, DecidableEq

/-- The final report returned by `analyze` (lines 1328-1340); every
top-level key of the wire contract is a field, so presence and
non-nullness of the keys hold by construction. -/
structure Report where
  atsScore : AtsResult
  skillsAnalysis : SkillsAnalysis
  learningRoadmap : List RoadmapItem
  resources : List (String × List ResourceRec)
  projects : List ProjectRec
  jobs : List JobPosting
  interviewQuestions : List IQuestion
  errors : List String
  deriving Repr, DecidableEq

/-- `analyze` (lines 1306-1340) when every AI call raises: the ten
stages in workflow order, each AI stage replaced by its recorded error
plus deterministic fallback. -/
def analyzeAllFail (σ : List String → List String)
    (tok : String → List String) (wn : String → List String)
    (em : Nat → String) (resumeText jobDescription : String) : Report :=
  let extractedKeywords := fallbackKeywordExtraction σ jobDescription
  let extractedSkills := fallbackSkillExtraction jobDescription
  let analysis := enhancedFallbackAnalysis resumeText
  let ats := calcAtsScore resumeText extractedKeywords extractedSkills
    analysis.resumeSkills
  let missing := findGaps σ analysis.resumeSkills extractedSkills
  let kr := analyzeRepetitions tok wn resumeText
  { atsScore := ats
    skillsAnalysis := { missingSkills := missing, keywordRepetitions := kr }
    learningRoadmap := fallbackRoadmap missing
    resources := createResources missing
    projects := fallbackProjects (missing.take 4) analysis.resumeSkills
    jobs := fallbackJobs analysis.resumeSkills analysis.experienceLevel
    interviewQuestions := fallbackInterviewQuestions extractedSkills
      extractedKeywords analysis.experienceLevel
    errors := ["Job extraction error: " ++ em 0,
               "Resume analysis error: " ++ em 1,
               "Roadmap error: " ++ em 2,
               "Projects error: " ++ em 3,
               "Job matching error: " ++ em 4,
               "Interview questions error: " ++ em 5] }

/-! ### Spec-side predicates -/

/-- The experience-enhancement AI call falls back: it raises, or its
stripped response is empty or shorter than 20 characters (lines
2401-2410). -/
def FallsBack (ai : String → Except String String) (jd : String)
    (exp : ExpEntry) : Prop :=
  match ai (mkExperiencePrompt jd exp) with
  | .error _ => True
  | .ok r => pyStrip r = "" ∨ (pyStrip r).length < 20

/-- No two consecutive whitespace characters. -/
def noDoubleWS : List Char → Bool
  | [] => true
  | [_] => true
  | c :: d :: rest =>
    !(isPySpace c && isPySpace d) && noDoubleWS (d :: rest)

/-- A plain-prose character: a letter, a single space, or basic
sentence punctuation. -/
def proseChar (c : Char) : Bool :=
  c.isAlpha || ([' ', '.', ',', '?', '!', ';', ':'].contains c)

/-- Plain prose for the cleaning contract of §4.5: only prose
characters, no run of two whitespace characters, and no leading or
trailing whitespace.  Such text contains none of the markers any
cleaning pass reacts to. -/
def plainProse (s : String) : Bool :=
  s.data.all proseChar &&
  noDoubleWS s.data &&
  (match s.data.head? with | some c => !isPySpace c | none => true) &&
  (match s.data.getLast? with | some c => !isPySpace c | none => true)

/-! ### Concrete inputs used by counterexamples and witnesses -/

/-- A resume containing all three section headings, all ten action
verbs, and the job keyword and skill `python`. -/
def perfectResume : String :=
  "experience education skills managed developed created implemented designed led built achieved improved optimized python"

/-- A whitespace tokenizer standing in for `nltk.word_tokenize` on
concrete runs. -/
def wsTok : String → List String := fun s => s.splitOn " "

/-- A WordNet oracle returning no lemmas. -/
def wnEmpty : String → List String := fun _ => []

/-- A constant exception-message assignment. -/
def emConst : Nat → String := fun _ => "CompletionError"

/-- An AI oracle that answers every enhancement prompt with text
containing a number absent from the original entry. -/
def c3ai : String → Except String String :=
  fun _ => .ok "Increased revenue by 500 percent this year"

/-- A concrete parsed experience entry with no digits. -/
def c3exp : ExpEntry :=
  { description := some "Led the team and did good work"
    achievements := some [] }

/-- An AI oracle that raises on every call. -/
def aiFail : String → Except String String :=
  fun _ => .error "CompletionError"

/-! ## Theorems -/

section Lemmas

/-- The keyword/skill ratio component equals its cap when every item
matches. -/
theorem pyMin_ratio_full (n : ℕ) (hn : 1 ≤ n) (c : ℚ) :
    pyMin ((n : ℚ) / ((max n 1 : ℕ) : ℚ) * c) c = c := by
  have hmax : max n 1 = n := Nat.max_eq_left hn
  have hne : ((n : ℚ)) ≠ 0 := Nat.cast_ne_zero.mpr (by omega)
  rw [hmax, div_self hne, one_mul, pyMin, if_pos le_rfl]

/-- The clamp `max(0, min(100, x))` lies in `[0, 100]`. -/
theorem clamp_range (x : ℤ) :
    0 ≤ pyMaxI 0 (pyMinI 100 x) ∧ pyMaxI 0 (pyMinI 100 x) ≤ 100 := by
  unfold pyMaxI pyMinI
  constructor
  · split <;> split <;> omega
  · split <;> split <;> omega

/-- On a perfectly matching input the ATS stage scores exactly 99:
40 + 25 + 20 + 9.9 + 5 = 99.9, truncated. -/
theorem ats_perfect_score (resumeText : String) (K S RS : List String)
    (hK : K ≠ []) (hKin : ∀ kw ∈ K, subStr (lc kw) (lc resumeText) = true)
    (hS : S ≠ []) (hSin : ∀ s ∈ S, lc s ∈ RS.map lc)
    (hSec : ∀ sec ∈ essentialSections, subStr sec (lc resumeText) = true)
    (hAct : ∀ v ∈ actionVerbs, subStr v (lc resumeText) = true) :
    (calcAtsScore resumeText K S RS).score = 99 := by
  simp only [calcAtsScore]
  rw [List.filter_eq_self.mpr (by
    intro a ha
    rcases List.mem_map.mp ha with ⟨kw, hkw, rfl⟩
    exact hKin kw hkw)]
  rw [List.filter_eq_self.mpr (show ∀ a ∈ (S.map lc).dedup,
      ((RS.map lc).dedup).contains a = true from by
    intro a ha
    rcases List.mem_map.mp (List.mem_dedup.mp ha) with ⟨s, hs, rfl⟩
    exact List.elem_eq_true_of_mem (List.mem_dedup.mpr (hSin s hs)))]
  rw [List.filter_eq_self.mpr hSec, List.filter_eq_self.mpr hAct]
  rw [List.length_map]
  rw [pyMin_ratio_full K.length (List.length_pos.mpr hK) 25]
  rw [pyMin_ratio_full ((S.map lc).dedup).length (List.length_pos.mpr (by
    intro h
    exact hS (List.map_eq_nil_iff.mp ((List.dedup_eq_nil _).mp h)))) 20]
  norm_num [essentialSections, actionVerbs, pyMin, pyInt, pyMaxI, pyMinI]

/-- The ATS score always lies in `[0, 100]`. -/
theorem ats_score_range (resumeText : String) (K S RS : List String) :
    0 ≤ (calcAtsScore resumeText K S RS).score ∧
    (calcAtsScore resumeText K S RS).score ≤ 100 := by
  simp only [calcAtsScore]
  exact clamp_range _

/-- Membership in `firstOccAux`: an element appears iff it occurs in
the rest of the list and has not been seen. -/
theorem mem_firstOccAux (a : String) :
    ∀ (l seen : List String),
      a ∈ firstOccAux seen l ↔ (a ∈ l ∧ ¬ a ∈ seen) := by
  intro l
  induction l with
  | nil => intro seen; simp [firstOccAux]
  | cons b rest ih =>
    intro seen
    unfold firstOccAux
    by_cases hb : seen.contains b
    · rw [if_pos hb, ih]
      have hbm : b ∈ seen := by simpa using hb
      constructor
      · rintro ⟨h1, h2⟩; exact ⟨List.mem_cons_of_mem _ h1, h2⟩
      · rintro ⟨h1, h2⟩
        rcases List.mem_cons.mp h1 with rfl | h1
        · exact absurd hbm h2
        · exact ⟨h1, h2⟩
    · rw [if_neg hb, List.mem_cons, ih]
      have hbm : ¬ b ∈ seen := by simpa using hb
      constructor
      · rintro (rfl | ⟨h1, h2⟩)
        · exact ⟨List.mem_cons_self _ _, hbm⟩
        · exact ⟨List.mem_cons_of_mem _ h1,
            fun hc => h2 (List.mem_cons_of_mem _ hc)⟩
      · rintro ⟨h1, h2⟩
        rcases List.mem_cons.mp h1 with rfl | h1
        · exact Or.inl rfl
        · by_cases hab : a = b
          · exact Or.inl hab
          · exact Or.inr ⟨h1, fun hc => by
              rcases List.mem_cons.mp hc with h | h
              · exact hab h
              · exact h2 h⟩

/-- The key list of the Counter model has no duplicates. -/
theorem nodup_firstOccAux :
    ∀ (l seen : List String), (firstOccAux seen l).Nodup := by
  intro l
  induction l with
  | nil => intro seen; simp [firstOccAux]
  | cons b rest ih =>
    intro seen
    unfold firstOccAux
    by_cases hb : seen.contains b
    · rw [if_pos hb]; exact ih seen
    · rw [if_neg hb]
      refine List.nodup_cons.mpr ⟨?_, ih (b :: seen)⟩
      intro hc
      exact ((mem_firstOccAux b rest (b :: seen)).mp hc).2
        (List.mem_cons_self _ _)

/-- A filter over a duplicate-free list keeps exactly one designated
element when the predicate holds only there. -/
theorem filter_eq_singleton {α : Type} [DecidableEq α] (p : α → Bool) :
    ∀ (l : List α) (a : α), l.Nodup → a ∈ l →
      p a = true → (∀ b ∈ l, b ≠ a → p b = false) → l.filter p = [a] := by
  intro l
  induction l with
  | nil => intro a _ ha; exact absurd ha (List.not_mem_nil a)
  | cons h t ih =>
    intro a hnd ha hpa hother
    rcases List.mem_cons.mp ha with rfl | hat
    · rw [List.filter_cons_of_pos hpa]
      have : t.filter p = [] := by
        apply List.filter_eq_nil_iff.mpr
        intro b hb
        have hba : b ≠ a := by
          rintro rfl
          exact (List.nodup_cons.mp hnd).1 hb
        simp [hother b (List.mem_cons_of_mem _ hb) hba]
      rw [this]
    · have hha : h ≠ a := by
        rintro rfl
        exact (List.nodup_cons.mp hnd).1 hat
      rw [List.filter_cons_of_neg
        (by simp [hother h (List.mem_cons_self _ _) hha])]
      exact ih a (List.nodup_cons.mp hnd).2 hat hpa
        (fun b hb => hother b (List.mem_cons_of_mem _ hb))

/-- A word with at least one curated synonym always gets a non-empty
synonym list, whatever WordNet returns. -/
theorem getSynonyms_ne_nil (wn : String → List String) (w : String)
    (h : curatedSynonyms w ≠ []) : getSynonyms wn w ≠ [] := by
  unfold getSynonyms
  intro hc
  rw [List.take_eq_nil_iff] at hc
  rcases hc with hc | hc
  · exact absurd hc (by norm_num)
  · rcases List.append_eq_nil.mp hc with ⟨h1, _⟩
    rw [List.take_eq_nil_iff] at h1
    rcases h1 with h1 | h1
    · exact absurd h1 (by norm_num)
    · exact h h1

/-- Every target word longer than three characters has curated
synonyms. -/
theorem curated_targets_nonempty :
    ∀ w ∈ targetWords, 3 < w.length → curatedSynonyms w ≠ [] := by decide

/-- No repetition pairs arise when every target word occurs at most
twice. -/
theorem repPairs_empty (tokens : List String)
    (h : ∀ w ∈ targetWords, tokens.count w ≤ 2) :
    repetitionPairs tokens = [] := by
  have hfil : (firstOcc (tokens.filter isTargetToken)).filter
      (fun w => decide (2 < (tokens.filter isTargetToken).count w)) = [] := by
    apply List.filter_eq_nil_iff.mpr
    intro w hw
    have hwc : w ∈ tokens.filter isTargetToken :=
      ((mem_firstOccAux w _ []).mp hw).1
    have htgt : isTargetToken w = true := List.of_mem_filter hwc
    have hwm : w ∈ targetWords := by
      have := (Bool.and_eq_true _ _).mp htgt
      simpa using this.1
    rw [List.count_filter htgt]
    have := h w hwm
    simp only [decide_eq_true_eq]
    omega
  simp only [repetitionPairs]
  rw [hfil, List.map_nil]

/-- `(l if l == [] else [g])[:2]` is never empty. -/
theorem ite_nil_take2_ne_nil (l : List ProjectRec) (g : ProjectRec) :
    ((if l = [] then [g] else l).take 2) ≠ [] := by
  split
  · simp
  · rename_i h
    simp only [ne_eq, List.take_eq_nil_iff]
    rintro (h2 | h2)
    · exact absurd h2 (by norm_num)
    · exact h h2

/-- The fallback project list is non-empty and has at most two
entries (lines 1382-1404). -/
theorem fallbackProjects_bounds (ms cs : List String) :
    fallbackProjects ms cs ≠ [] ∧ (fallbackProjects ms cs).length ≤ 2 := by
  simp only [fallbackProjects]
  exact ⟨ite_nil_take2_ne_nil _ _, List.length_take_le _ _⟩

/-- The fallback job list is never empty: every branch of
`_get_fallback_jobs` returns at least one posting. -/
theorem fallbackJobs_ne_nil (cs : List String) (lvl : String) :
    fallbackJobs cs lvl ≠ [] := by
  unfold fallbackJobs
  split
  · simp
  · split <;> simp

/-- The fallback interview-question list is never empty: the three
fixed behavioural questions are always included before the `[:12]`
cap. -/
theorem fallbackInterview_ne_nil (js ks : List String) (lvl : String) :
    fallbackInterviewQuestions js ks lvl ≠ [] := by
  unfold fallbackInterviewQuestions
  simp only [ne_eq, List.take_eq_nil_iff]
  rintro (h | h)
  · norm_num at h
  · simp at h

/-- `_create_resources` returns an empty mapping exactly when the
missing-skill list is empty (`missing_skills[:3]` mapped). -/
theorem createResources_eq_nil_iff (ms : List String) :
    createResources ms = [] ↔ ms = [] := by
  unfold createResources
  rw [List.map_eq_nil_iff, List.take_eq_nil_iff]
  constructor
  · rintro (h | h)
    · exact absurd h (by norm_num)
    · exact h
  · intro h; exact Or.inr h

/-- The fallback roadmap is empty exactly when the missing-skill list
is empty (`missing_skills[:4]` enumerated and mapped). -/
theorem fallbackRoadmap_eq_nil_iff (ms : List String) :
    fallbackRoadmap ms = [] ↔ ms = [] := by
  unfold fallbackRoadmap
  rw [List.map_eq_nil_iff, List.enum_eq_nil, List.take_eq_nil_iff]
  constructor
  · rintro (h | h)
    · exact absurd h (by norm_num)
    · exact h
  · intro h; exact Or.inr h

/-- The ATS score depends on the extracted keyword list only through
filter counts and lengths, so it is invariant under permutation of
that list. -/
theorem calcAtsScore_perm_keywords (resumeText : String)
    (k1 k2 es rs : List String) (h : k1.Perm k2) :
    calcAtsScore resumeText k1 es rs = calcAtsScore resumeText k2 es rs := by
  have hlen : (k1.map lc).length = (k2.map lc).length := (h.map lc).length_eq
  have hm : ((k1.map lc).filter (fun kw => subStr kw (lc resumeText))).length
      = ((k2.map lc).filter (fun kw => subStr kw (lc resumeText))).length :=
    (List.Perm.filter _ (h.map lc)).length_eq
  simp only [calcAtsScore, hlen, hm]

end Lemmas

/-- C1 (counterexample): a concrete resume containing all three section
headings, all ten action verbs, the only job keyword and the only job
skill, with the resume-analysis skills covering all job skills, on
which the ATS stage does not return 100 (it returns 99): the formatting
component adds 3.3 per heading (9.9 total), not 3.33, so the claimed
perfect score is unreachable. -/
theorem C1_counterexample :
    (∀ sec ∈ essentialSections, subStr sec (lc perfectResume) = true) ∧
    (∀ v ∈ actionVerbs, subStr v (lc perfectResume) = true) ∧
    (["python"] : List String) ≠ [] ∧
    (∀ kw ∈ (["python"] : List String),
      subStr (lc kw) (lc perfectResume) = true) ∧
    (∀ s ∈ (["python"] : List String),
      lc s ∈ (["python"] : List String).map lc) ∧
    (calcAtsScore perfectResume ["python"] ["python"] ["python"]).score
      ≠ 100 := by
  refine ⟨by decide, by decide, by decide, by decide, by decide, ?_⟩
  rw [ats_perfect_score perfectResume ["python"] ["python"] ["python"]
    (by decide) (by decide) (by decide) (by decide) (by decide) (by decide)]
  decide

/-- C1 (amended): on every input whose resume contains the three section
headings, the ten action verbs and every extracted job keyword, and
whose resume-analysis skills cover all extracted job skills (both lists
non-empty), the ATS stage returns exactly 99 = int(40 + 25 + 20 + 9.9 +
5), the formatting component being 3.3 points per essential heading
capped at 10; and on every input whatsoever the returned score is an
integer in [0, 100]. -/
theorem C1_ats_score :
    (∀ (resumeText : String) (K S RS : List String),
      K ≠ [] → (∀ kw ∈ K, subStr (lc kw) (lc resumeText) = true) →
      S ≠ [] → (∀ s ∈ S, lc s ∈ RS.map lc) →
      (∀ sec ∈ essentialSections, subStr sec (lc resumeText) = true) →
      (∀ v ∈ actionVerbs, subStr v (lc resumeText) = true) →
      (calcAtsScore resumeText K S RS).score = 99) ∧
    (∀ (resumeText : String) (K S RS : List String),
      0 ≤ (calcAtsScore resumeText K S RS).score ∧
      (calcAtsScore resumeText K S RS).score ≤ 100) :=
  ⟨fun rt K S RS hK hKin hS hSin hSec hAct =>
    ats_perfect_score rt K S RS hK hKin hS hSin hSec hAct,
   fun rt K S RS => ats_score_range rt K S RS⟩

/-- C1 (witness): the amended theorem applied to the concrete perfect
resume. -/
theorem C1_witness :
    (calcAtsScore perfectResume ["python"] ["python"] ["python"]).score = 99
    ∧ 0 ≤ (calcAtsScore perfectResume ["x"] [] []).score := by
  constructor
  · exact C1_ats_score.1 perfectResume ["python"] ["python"] ["python"]
      (by decide) (by decide) (by decide) (by decide) (by decide) (by decide)
  · exact (C1_ats_score.2 perfectResume ["x"] [] []).1

/-- C4 (counterexample): the target word `led` occurs three times (more
than twice), yet the repetition stage reports nothing, because tokens of
length up to 3 are never counted (line 365). -/
theorem C4_counterexample :
    "led" ∈ targetWords ∧
    2 < (["led", "led", "led"] : List String).count "led" ∧
    (analyzeRepTokens wnEmpty ["led", "led", "led"]).repetitions = [] := by
  refine ⟨by decide, by decide, by decide⟩

/-- C4 (amended): every word of the curated target set of length
greater than 3 that occurs more than twice among the tokens appears in
the repetition stage's repetitions mapping together with its occurrence
count (the only shorter target word, `led`, is never counted). -/
theorem C4_overused_words (wn : String → List String)
    (tokens : List String) (w : String)
    (hw : w ∈ targetWords) (hlen : 3 < w.length)
    (hcount : 2 < tokens.count w) :
    ∃ syns, (w, tokens.count w, syns) ∈
      (analyzeRepTokens wn tokens).repetitions := by
  have htgt : isTargetToken w = true := by
    unfold isTargetToken
    rw [Bool.and_eq_true]
    exact ⟨List.elem_eq_true_of_mem hw, by simpa using hlen⟩
  have hcw : (tokens.filter isTargetToken).count w = tokens.count w :=
    List.count_filter htgt
  have hmem : w ∈ tokens.filter isTargetToken :=
    List.count_pos_iff.mp (by omega)
  have hkeys : w ∈ firstOcc (tokens.filter isTargetToken) :=
    (mem_firstOccAux _ _ []).mpr ⟨hmem, by simp⟩
  have hrep : (w, tokens.count w) ∈ repetitionPairs tokens := by
    simp only [repetitionPairs]
    refine List.mem_map.mpr ⟨w, List.mem_filter.mpr ⟨hkeys, ?_⟩, by rw [hcw]⟩
    simp only [decide_eq_true_eq, hcw]
    omega
  have hsyn : getSynonyms wn w ≠ [] :=
    getSynonyms_ne_nil wn w (curated_targets_nonempty w hw hlen)
  refine ⟨(getSynonyms wn w).take 6, ?_⟩
  have hs : (w, tokens.count w, (getSynonyms wn w).take 6) ∈
      repSuggestions wn tokens := by
    unfold repSuggestions
    exact List.mem_filterMap.mpr ⟨(w, tokens.count w), hrep, by simp [hsyn]⟩
  have hne : repSuggestions wn tokens ≠ [] := by
    intro hc; rw [hc] at hs; exact (List.not_mem_nil _) hs
  simpa [analyzeRepTokens, hne] using hs

/-- C4 (witness): the amended theorem applied to a resume whose tokens
use `developed` three times. -/
theorem C4_witness :
    ∃ syns, ("developed",
      (["developed", "developed", "developed"] : List String).count
        "developed", syns) ∈
      (analyzeRepTokens wnEmpty
        ["developed", "developed", "developed"]).repetitions :=
  C4_overused_words wnEmpty ["developed", "developed", "developed"]
    "developed" (by decide) (by decide) (by decide)

/-- C5: a resume whose tokens use `developed` exactly three times and
no other target word more than twice yields `repetitions_found`, one
issue, and the synonym entry for `developed` whose list (the first six
curated synonyms) has length at most 8, no duplicates and no entry
case-insensitively equal to `developed`. -/
theorem C5_repetition_detector (wn : String → List String)
    (tokens : List String)
    (hd : tokens.count "developed" = 3)
    (h : ∀ w ∈ targetWords, w ≠ "developed" → tokens.count w ≤ 2) :
    (analyzeRepTokens wn tokens).status = "repetitions_found" ∧
    (analyzeRepTokens wn tokens).totalIssues = 1 ∧
    (analyzeRepTokens wn tokens).repetitions =
      [("developed",  3,
        ["built", "created", "designed", "implemented", "engineered",
         "constructed"])] ∧
    (["built", "created", "designed", "implemented", "engineered",
      "constructed"] : List String).length ≤ 8 ∧
    (["built", "created", "designed", "implemented", "engineered",
      "constructed"] : List String).Nodup ∧
    (∀ s ∈ (["built", "created", "designed", "implemented", "engineered",
      "constructed"] : List String), lc s ≠ lc "developed") := by
  have htgt : isTargetToken "developed" = true := by decide
  have hcd : (tokens.filter isTargetToken).count "developed" = 3 := by
    rw [List.count_filter htgt]; exact hd
  have hmem : "developed" ∈ tokens.filter isTargetToken := by
    have : 0 < (tokens.filter isTargetToken).count "developed" := by omega
    exact List.count_pos_iff.mp this
  have hkeys : "developed" ∈ firstOcc (tokens.filter isTargetToken) :=
    (mem_firstOccAux _ _ []).mpr ⟨hmem, by simp⟩
  have hfilter : (firstOcc (tokens.filter isTargetToken)).filter
      (fun w => decide (2 < (tokens.filter isTargetToken).count w)) =
      ["developed"] := by
    apply filter_eq_singleton _ _ _ (nodup_firstOccAux _ []) hkeys
    · simp only [decide_eq_true_eq, hcd]; omega
    · intro b hb hbne
      have hbc : b ∈ tokens.filter isTargetToken :=
        ((mem_firstOccAux b _ []).mp hb).1
      have hbt : isTargetToken b = true := List.of_mem_filter hbc
      have hbm : b ∈ targetWords := by
        have := (Bool.and_eq_true _ _).mp hbt
        simpa using this.1
      rw [List.count_filter hbt]
      have := h b hbm hbne
      simp only [decide_eq_false_iff_not]
      omega
  have hreps : repetitionPairs tokens = [("developed", 3)] := by
    simp only [repetitionPairs]
    rw [hfilter, List.map_cons, List.map_nil, hcd]
  have hsugg : repSuggestions wn tokens =
      [("developed", 3,
        ["built", "created", "designed", "implemented", "engineered",
         "constructed"])] := by
    unfold repSuggestions
    rw [hreps]
    rfl
  refine ⟨?_, ?_, ?_, by decide, by decide, by decide⟩
  · simp [analyzeRepTokens, hsugg]
  · simp [analyzeRepTokens, hsugg]
  · simp [analyzeRepTokens, hsugg]

/-- C5 (witness): the theorem applied to a concrete token list using
`developed` exactly three times. -/
theorem C5_witness :
    (analyzeRepTokens wnEmpty
      ["developed", "x", "developed", "skills", "developed"]).status =
      "repetitions_found" ∧
    (analyzeRepTokens wnEmpty
      ["developed", "x", "developed", "skills", "developed"]).totalIssues
      = 1 := by
  have h := C5_repetition_detector wnEmpty
    ["developed", "x", "developed", "skills", "developed"]
    (by decide) (by decide)
  exact ⟨h.1, h.2.1⟩

/-- C6: a resume whose tokens use every target word at most twice
yields `perfect_variety`, zero issues and an empty repetitions
mapping. -/
theorem C6_perfect_variety (wn : String → List String)
    (tokens : List String)
    (h : ∀ w ∈ targetWords, tokens.count w ≤ 2) :
    (analyzeRepTokens wn tokens).status = "perfect_variety" ∧
    (analyzeRepTokens wn tokens).totalIssues = 0 ∧
    (analyzeRepTokens wn tokens).repetitions = [] := by
  have hs : repSuggestions wn tokens = [] := by
    unfold repSuggestions
    rw [repPairs_empty tokens h]
    rfl
  simp [analyzeRepTokens, hs]

/-- C6 (witness): the theorem applied to a concrete token list with no
overused target word. -/
theorem C6_witness :
    (analyzeRepTokens wnEmpty ["developed", "built", "developed"]).status
      = "perfect_variety" ∧
    (analyzeRepTokens wnEmpty
      ["developed", "built", "developed"]).totalIssues = 0 := by
  have h := C6_perfect_variety wnEmpty ["developed", "built", "developed"]
    (by decide)
  exact ⟨h.1, h.2.1⟩

/-- C7: the missing-skills stage returns at most 8 entries, its result
is order-stably truncated from the enumerated set difference (a sublist
of it, never a reordering), and for job skills `{A, B, C}` minus resume
skills `{B}` it contains the lower-cased `A` and `C`, for every
admissible set enumeration. -/
theorem C7_missing_skills :
    (∀ (σ : List String → List String), SetEnum σ →
      ∀ (RS ES : List String),
        (findGaps σ RS ES).length ≤ 8 ∧
        (findGaps σ RS ES).Sublist (σ (gapsDiff RS ES))) ∧
    (∀ (σ : List String → List String), SetEnum σ →
      ∀ (A B C : String), lc A ≠ lc B → lc C ≠ lc B →
        lc A ∈ findGaps σ [B] [A, B, C] ∧
        lc C ∈ findGaps σ [B] [A, B, C]) := by
  constructor
  · intro σ hσ RS ES
    exact ⟨List.length_take_le _ _, List.take_sublist _ _⟩
  · intro σ hσ A B C hA hC
    have hlen : (gapsDiff [B] [A, B, C]).length ≤ 8 := by
      calc (gapsDiff [B] [A, B, C]).length
          ≤ ([A, B, C].map lc).length := by
            exact List.Sublist.length_le
              ((List.filter_sublist _).trans (List.dedup_sublist _))
        _ ≤ 8 := by simp
    have htake : findGaps σ [B] [A, B, C] = σ (gapsDiff [B] [A, B, C]) := by
      unfold findGaps
      exact List.take_of_length_le (by
        rw [(hσ _).length_eq]; exact hlen)
    have hmem : ∀ x : String, x ≠ lc B → x ∈ ([A, B, C].map lc) →
        x ∈ findGaps σ [B] [A, B, C] := by
      intro x hx hxm
      rw [htake, (hσ _).mem_iff]
      unfold gapsDiff
      refine List.mem_filter.mpr ⟨List.mem_dedup.mpr hxm, ?_⟩
      simp only [Bool.not_eq_true']
      simp [List.contains, hx]
    constructor
    · exact hmem (lc A) hA (by simp)
    · exact hmem (lc C) hC (by simp)

/-- C7 (witness): the theorem applied to the identity enumeration and
job skills `{Go, C, Rust}` against resume skill `{C}`. -/
theorem C7_witness :
    (findGaps id ["C"] ["Go", "C", "Rust"]).length ≤ 8 ∧
    lc "Go" ∈ findGaps id ["C"] ["Go", "C", "Rust"] ∧
    lc "Rust" ∈ findGaps id ["C"] ["Go", "C", "Rust"] := by
  have hid : SetEnum id := fun l => List.Perm.refl l
  have h1 := (C7_missing_skills.1 id hid ["C"] ["Go", "C", "Rust"]).1
  have h2 := C7_missing_skills.2 id hid "Go" "C" "Rust"
    (by decide) (by decide)
  exact ⟨h1, h2.1, h2.2⟩


/-- Mapping over a truncated list is bounded by the truncation. -/
theorem length_take_map_le {α β : Type} (f : α → β) (l : List α) (n : ℕ) :
    ((l.take n).map f).length ≤ n := by
  simp [List.length_take]

/-- Length bound through the optional-section wrapper. -/
theorem getD_if_le {α : Type} (P : Prop) [Decidable P] (X : List α) (n : ℕ)
    (h : X.length ≤ n) :
    ((if P then some X else none).getD ([] : List α)).length ≤ n := by
  split <;> simp [h]

/-- Membership through the optional-section wrapper. -/
theorem mem_getD_if {α : Type} (P : Prop) [Decidable P] (X : List α)
    (a : α) (h : a ∈ (if P then some X else none).getD ([] : List α)) :
    a ∈ X := by
  split at h
  · simpa using h
  · simp at h

/-- C10: the re-composed ATS resume document respects every section
cap: at most 3 experience entries, 2 projects each with at most 3
achievement highlights, 20 skills, 4 certifications, 3 awards, 5
languages, 3 volunteer entries and 3 publications, for every parsed
resume, analysis data and AI oracle. -/
theorem C10_section_caps (ai : String → Except String String) (jd : String)
    (parsed : ParsedResume) (analyzedSkills technologies : List String) :
    capsOk (recomposeSections ai jd parsed analyzedSkills technologies)
      = true := by
  have hexp : (enhanceExperienceSection ai jd parsed.experience).length ≤ 3 := by
    unfold enhanceExperienceSection
    split
    · simp
    · exact length_take_map_le _ _ _
  have hproj : (enhanceProjectsSection parsed.projects).length ≤ 2 := by
    unfold enhanceProjectsSection
    split
    · simp
    · exact length_take_map_le _ _ _
  have hprojA : ∀ p ∈ enhanceProjectsSection parsed.projects,
      p.achievements.length ≤ 3 := by
    intro p hp
    unfold enhanceProjectsSection at hp
    split at hp
    · simp at hp
    · rcases List.mem_map.mp hp with ⟨proj, _, rfl⟩
      exact List.length_take_le _ _
  have hsk : (enhanceSkillsSection parsed.skills analyzedSkills
      technologies).length ≤ 20 := by
    unfold enhanceSkillsSection
    exact length_take_map_le _ _ _
  have hcert : (enhanceCertificationsSection parsed.certifications).length
      ≤ 4 := by
    unfold enhanceCertificationsSection
    split
    · simp
    · exact length_take_map_le _ _ _
  have haw : (enhanceAwardsSection parsed.awards).length ≤ 3 := by
    unfold enhanceAwardsSection
    split
    · simp
    · exact length_take_map_le _ _ _
  have hlang : (enhanceLanguagesSection parsed.languages).length ≤ 5 := by
    unfold enhanceLanguagesSection
    split
    · simp
    · exact length_take_map_le _ _ _
  have hvol : (enhanceVolunteerSection parsed.volunteer).length ≤ 3 := by
    unfold enhanceVolunteerSection
    split
    · simp
    · exact length_take_map_le _ _ _
  have hpub : (enhancePublicationsSection parsed.publications).length ≤ 3 := by
    unfold enhancePublicationsSection
    split
    · simp
    · exact length_take_map_le _ _ _
  simp only [capsOk, recomposeSections, Bool.and_eq_true, decide_eq_true_eq,
    List.all_eq_true]
  exact ⟨⟨⟨⟨⟨⟨⟨⟨getD_if_le _ _ _ hexp, getD_if_le _ _ _ hproj⟩,
    fun p hp => by
      simpa using hprojA p (mem_getD_if _ _ p hp)⟩,
    getD_if_le _ _ _ hsk⟩, getD_if_le _ _ _ hcert⟩,
    getD_if_le _ _ _ haw⟩, getD_if_le _ _ _ hlang⟩,
    getD_if_le _ _ _ hvol⟩, getD_if_le _ _ _ hpub⟩


/-- A non-digit head flushes the current run. -/
theorem drAux_cons_nondigit (c : Char) (hc : c.isDigit = false)
    (cur x : List Char) :
    drAux cur (c :: x) =
      (if cur = [] then [] else [cur.reverse]) ++ drAux [] x := by
  simp [drAux, hc]

/-- A digit head extends the current run. -/
theorem drAux_cons_digit (c : Char) (hc : c.isDigit = true)
    (cur x : List Char) :
    drAux cur (c :: x) = drAux (c :: cur) x := by
  simp [drAux, hc]

/-- Replacing newlines by `<br>` does not change the digit runs. -/
theorem drAux_replaceFuel :
    ∀ (f : ℕ) (l cur : List Char), l.length ≤ f →
      drAux cur (replaceFuel ['\n'] ['<', 'b', 'r', '>'] f l) = drAux cur l := by
  intro f
  induction f with
  | zero =>
    intro l cur hl
    have : l = [] := List.length_eq_zero.mp (Nat.le_zero.mp hl)
    subst this
    rfl
  | succ f ih =>
    intro l cur hl
    match l with
    | [] => rfl
    | c :: rest =>
      by_cases hc : c = '\n'
      · subst hc
        have hpre : ((['\n'] : List Char) ≠ [] &&
            (['\n'] : List Char).isPrefixOf ('\n' :: rest)) = true := by
          simp [List.isPrefixOf]
        rw [show replaceFuel ['\n'] ['<', 'b', 'r', '>'] (f + 1) ('\n' :: rest) =
            '<' :: 'b' :: 'r' :: '>' :: replaceFuel ['\n'] ['<', 'b', 'r', '>'] f rest from by
          rw [replaceFuel, if_pos hpre]
          rfl]
        rw [drAux_cons_nondigit '<' (by decide), drAux_cons_nondigit 'b' (by decide),
          drAux_cons_nondigit 'r' (by decide), drAux_cons_nondigit '>' (by decide),
          drAux_cons_nondigit '\n' (by decide)]
        simp only [List.length_cons] at hl
        rw [ih rest [] (by omega)]
        simp
      · have hpf : (['\n'] : List Char).isPrefixOf (c :: rest) = false := by
          simp only [List.isPrefixOf, Bool.and_eq_false_iff]
          left
          exact beq_eq_false_iff_ne.mpr (fun h => hc h.symm)
        rw [show replaceFuel ['\n'] ['<', 'b', 'r', '>'] (f + 1) (c :: rest) =
            c :: replaceFuel ['\n'] ['<', 'b', 'r', '>'] f rest from by
          rw [replaceFuel, if_neg (by simp [hpf])]]
        simp only [List.length_cons] at hl
        by_cases hd : c.isDigit
        · rw [drAux_cons_digit c hd, drAux_cons_digit c hd, ih rest _ (by omega)]
        · rw [drAux_cons_nondigit c (by simpa using hd),
            drAux_cons_nondigit c (by simpa using hd), ih rest _ (by omega)]

/-- Digit runs are invariant under the `<br>` fallback reformat. -/
theorem digitRuns_replace_newline (l : List Char) :
    digitRuns (replaceChars "\n".data "<br>".data l) = digitRuns l := by
  unfold digitRuns replaceChars
  exact drAux_replaceFuel l.length l [] le_rfl

/-- Digit runs split across a non-digit separator. -/
theorem drAux_append (c : Char) (hc : c.isDigit = false) (y : List Char) :
    ∀ (x cur : List Char),
      drAux cur (x ++ c :: y) = drAux cur x ++ drAux [] y := by
  intro x
  induction x with
  | nil =>
    intro cur
    rw [List.nil_append, drAux_cons_nondigit c hc]
    simp [drAux]
  | cons a x ih =>
    intro cur
    rw [List.cons_append]
    by_cases hd : a.isDigit
    · rw [drAux_cons_digit a hd, drAux_cons_digit a hd, ih]
    · rw [drAux_cons_nondigit a (by simpa using hd),
        drAux_cons_nondigit a (by simpa using hd), ih, List.append_assoc]

/-- Every digit run of the bulleted achievements block comes from one
of the achievements. -/
theorem digitRuns_bullets_mem (r : List Char) :
    ∀ (achs : List String),
      r ∈ digitRuns (joinWith "\n" (achs.map (fun a => "• " ++ a))).data →
      ∃ a ∈ achs, r ∈ digitRuns a.data := by
  intro achs
  induction achs with
  | nil => intro h; simp [joinWith, digitRuns, drAux] at h
  | cons a rest ih =>
    intro h
    match rest, ih with
    | [], _ =>
      refine ⟨a, List.mem_cons_self _ _, ?_⟩
      simp only [List.map_cons, List.map_nil, joinWith] at h
      rw [show ("• " ++ a).data = '•' :: ' ' :: a.data from by
        rw [String.data_append]; rfl] at h
      rw [show digitRuns ('•' :: ' ' :: a.data) = digitRuns a.data from by
        unfold digitRuns
        rw [drAux_cons_nondigit '•' (by decide),
          drAux_cons_nondigit ' ' (by decide)]
        simp] at h
      exact h
    | b :: rest', ih =>
      simp only [List.map_cons, joinWith] at h
      rw [show ("• " ++ a ++ "\n" ++
          joinWith "\n" (("• " ++ b) :: rest'.map (fun x => "• " ++ x))).data
          = ('•' :: ' ' :: a.data) ++ '\n' ::
            (joinWith "\n" (("• " ++ b) :: rest'.map (fun x => "• " ++ x))).data
          from by
        simp [String.data_append]] at h
      rw [show digitRuns (('•' :: ' ' :: a.data) ++ '\n' ::
            (joinWith "\n" (("• " ++ b) :: rest'.map (fun x => "• " ++ x))).data)
          = digitRuns a.data ++ digitRuns
            (joinWith "\n" (("• " ++ b) :: rest'.map (fun x => "• " ++ x))).data
          from by
        unfold digitRuns
        rw [drAux_append '\n' (by decide)]
        rw [drAux_cons_nondigit '•' (by decide),
          drAux_cons_nondigit ' ' (by decide)]
        simp] at h
      rcases List.mem_append.mp h with h | h
      · exact ⟨a, List.mem_cons_self _ _, h⟩
      · rcases ih (by simpa using h) with ⟨x, hx, hr⟩
        exact ⟨x, List.mem_cons_of_mem _ hx, hr⟩

/-- Every digit run of `full_content` comes from the original
description or one of the achievements. -/
theorem fullContent_digitRuns_mem (exp : ExpEntry) (r : List Char)
    (h : r ∈ digitRuns (fullContent exp).data) :
    r ∈ digitRuns (origDescription exp).data ∨
    ∃ a ∈ exp.achievements.getD [], r ∈ digitRuns a.data := by
  simp only [fullContent] at h
  by_cases hach : exp.achievements.getD [] = []
  · rw [if_neg (by simp [hach])] at h
    left
    rw [String.data_append] at h
    simpa using h
  · rw [if_pos (by simpa using hach)] at h
    rw [show (origDescription exp ++
        ("\n\n" ++ joinWith "\n" ((exp.achievements.getD []).map
          (fun a => "• " ++ a)))).data =
        (origDescription exp).data ++ '\n' :: '\n' ::
          (joinWith "\n" ((exp.achievements.getD []).map
            (fun a => "• " ++ a))).data from by
      simp [String.data_append]] at h
    rw [show digitRuns ((origDescription exp).data ++ '\n' :: '\n' ::
          (joinWith "\n" ((exp.achievements.getD []).map
            (fun a => "• " ++ a))).data) =
        digitRuns (origDescription exp).data ++ digitRuns
          (joinWith "\n" ((exp.achievements.getD []).map
            (fun a => "• " ++ a))).data from by
      unfold digitRuns
      rw [drAux_append '\n' (by decide)]
      rw [show drAux [] ('\n' :: (joinWith "\n"
          ((exp.achievements.getD []).map (fun a => "• " ++ a))).data) =
        drAux [] (joinWith "\n" ((exp.achievements.getD []).map
          (fun a => "• " ++ a))).data from by
        rw [drAux_cons_nondigit '\n' (by decide)]
        simp]] at h
    rcases List.mem_append.mp h with h | h
    · exact Or.inl h
    · exact Or.inr (digitRuns_bullets_mem r _ h)

/-- C3 (amended): whenever the enhancement AI call falls back (raises,
or returns under 20 characters after stripping), every maximal digit
sequence of the enhanced entry occurs in the original description or
achievements.  With a successful AI response the text is used
unverified, so no such guarantee holds (see the counterexample). -/
theorem C3_no_invented_numbers (ai : String → Except String String)
    (jd : String) (exps : List ExpEntry) (exp : ExpEntry)
    (hmem : exp ∈ exps.take 3) (hfb : FallsBack ai jd exp) :
    enhanceOneExperience ai jd exp ∈ enhanceExperienceSection ai jd exps ∧
    ∀ r ∈ digitRuns (enhanceOneExperience ai jd exp).workSummery.data,
      r ∈ digitRuns (origDescription exp).data ∨
      ∃ a ∈ exp.achievements.getD [], r ∈ digitRuns a.data := by
  constructor
  · unfold enhanceExperienceSection
    rw [if_neg (by
      intro hnil
      rw [hnil] at hmem
      simp at hmem)]
    exact List.mem_map.mpr ⟨exp, hmem, rfl⟩
  · intro r hr
    have hws : (enhanceOneExperience ai jd exp).workSummery =
        pyReplace (fullContent exp) "\n" "<br>" := by
      unfold enhanceOneExperience FallsBack at *
      cases hai : ai (mkExperiencePrompt jd exp) with
      | error e => simp [hai]
      | ok resp =>
        rw [hai] at hfb
        have hcond : (pyStrip resp = "" || (pyStrip resp).length < 20)
            = true := by
          rcases hfb with h | h
          · simp [h]
          · simp [h]
        simp [hai, hcond]
    rw [hws] at hr
    have : digitRuns (pyReplace (fullContent exp) "\n" "<br>").data =
        digitRuns (fullContent exp).data := by
      unfold pyReplace
      exact digitRuns_replace_newline _
    rw [this] at hr
    exact fullContent_digitRuns_mem exp r hr

/-- C3 (counterexample): an AI oracle answering with new numbers makes
the enhanced work summary contain the digit sequence 500 that occurs
nowhere in the original entry, refuting the claim for the AI path. -/
theorem C3_counterexample :
    "500".data ∈
      digitRuns (enhanceOneExperience c3ai "job" c3exp).workSummery.data ∧
    ¬ "500".data ∈ digitRuns (origDescription c3exp).data ∧
    c3exp.achievements.getD [] = [] ∧
    enhanceOneExperience c3ai "job" c3exp ∈
      enhanceExperienceSection c3ai "job" [c3exp] := by
  refine ⟨by decide, by decide, by decide, by decide⟩

/-- C3 (witness): the amended theorem applied to a failing oracle and a
concrete entry. -/
theorem C3_witness :
    enhanceOneExperience aiFail "job" c3exp ∈
      enhanceExperienceSection aiFail "job" [c3exp] ∧
    ∀ r ∈ digitRuns (enhanceOneExperience aiFail "job" c3exp).workSummery.data,
      r ∈ digitRuns (origDescription c3exp).data ∨
      ∃ a ∈ c3exp.achievements.getD [], r ∈ digitRuns a.data :=
  C3_no_invented_numbers aiFail "job" [c3exp] c3exp (by decide)
    (by simp [FallsBack, aiFail])


/-- Dropping a prefix by a predicate is idempotent. -/
theorem dropWhile_idem (p : Char → Bool) (l : List Char) :
    (l.dropWhile p).dropWhile p = l.dropWhile p := by
  induction l with
  | nil => rfl
  | cons c rest ih =>
    by_cases h : p c
    · rw [List.dropWhile_cons_of_pos h, ih]
    · rw [List.dropWhile_cons_of_neg h, List.dropWhile_cons_of_neg h]

/-- A list splits into a dropped prefix and its `dropWhile`. -/
theorem dropWhile_suffix_decomp (p : Char → Bool) (l : List Char) :
    ∃ t, l = t ++ l.dropWhile p := by
  induction l with
  | nil => exact ⟨[], rfl⟩
  | cons c rest ih =>
    by_cases h : p c
    · rcases ih with ⟨t, ht⟩
      rw [List.dropWhile_cons_of_pos h]
      exact ⟨c :: t, by rw [List.cons_append, ← ht]⟩
    · rw [List.dropWhile_cons_of_neg h]
      exact ⟨[], rfl⟩

/-- If a list has no leading match, trimming its tail leaves no
leading match either. -/
theorem dropWhile_of_dropTrail (p : Char → Bool) (m : List Char)
    (hm : m.dropWhile p = m) :
    (dropTrail p m).dropWhile p = dropTrail p m := by
  rcases dropWhile_suffix_decomp p m.reverse with ⟨t, ht⟩
  have hpre : dropTrail p m ++ t.reverse = m := by
    unfold dropTrail
    rw [← List.reverse_append, ← ht, List.reverse_reverse]
  cases hdt : dropTrail p m with
  | nil => rfl
  | cons c rest =>
    have hc : ¬ p c = true := by
      have hcm : m = c :: (rest ++ t.reverse) := by
        rw [← hpre, hdt, List.cons_append]
      intro hpc
      rw [hcm, List.dropWhile_cons_of_pos hpc] at hm
      have hlen := congrArg List.length hm
      rw [List.length_cons] at hlen
      have hle := (List.dropWhile_sublist (l := rest ++ t.reverse) p).length_le
      omega
    rw [List.dropWhile_cons_of_neg hc]

/-- Trimming the tail is idempotent. -/
theorem dropTrail_idem (p : Char → Bool) (l : List Char) :
    dropTrail p (dropTrail p l) = dropTrail p l := by
  unfold dropTrail
  rw [List.reverse_reverse, dropWhile_idem]

/-- Python `str.strip` is idempotent. -/
theorem stripChars_idem (l : List Char) :
    stripChars (stripChars l) = stripChars l := by
  unfold stripChars
  rw [dropWhile_of_dropTrail isPySpace (l.dropWhile isPySpace)
    (dropWhile_idem _ _), dropTrail_idem]

/-- Tail-trimming only removes characters. -/
theorem mem_dropTrail (p : Char → Bool) (c : Char) (l : List Char)
    (h : c ∈ dropTrail p l) : c ∈ l := by
  unfold dropTrail at h
  rw [List.mem_reverse] at h
  have := (List.dropWhile_sublist (l := l.reverse) (p := p)).mem h
  rwa [List.mem_reverse] at this

/-- Stripping only removes characters. -/
theorem mem_stripChars (c : Char) (l : List Char)
    (h : c ∈ stripChars l) : c ∈ l := by
  unfold stripChars at h
  exact (List.dropWhile_sublist _).mem (mem_dropTrail _ _ _ h)

/-- The leading-fence strip is the identity on backtick-free text. -/
theorem stripJsonFence_id (l : List Char) (h : ¬ '`' ∈ l) :
    stripJsonFence l = l := by
  unfold stripJsonFence
  rw [if_neg]
  intro hpre
  exact h ((List.isPrefixOf_iff_prefix.mp hpre).sublist.mem (by decide))

/-- The trailing-fence strip is the identity on backtick-free text. -/
theorem stripTrailFence_id (l : List Char) (h : ¬ '`' ∈ l) :
    stripTrailFence l = l := by
  unfold stripTrailFence
  rw [if_neg, if_neg]
  · intro hsuf
    exact h ((List.isSuffixOf_iff_suffix.mp hsuf).sublist.mem (by decide))
  · intro hsuf
    exact h ((List.isSuffixOf_iff_suffix.mp hsuf).sublist.mem (by decide))

/-- The JSON-fence cleaning is idempotent on backtick-free strings. -/
theorem cleanAI_idem_no_backtick (s : String) (h : ¬ '`' ∈ s.data) :
    cleanAI (cleanAI s) = cleanAI s := by
  have h1 : cleanAI s =
      ⟨stripChars (s.data.filter (fun c => c ≠ '*' && c ≠ '#'))⟩ := by
    unfold cleanAI
    rw [stripJsonFence_id _ h, stripTrailFence_id _ h]
  have ht : ∀ c ∈ stripChars (s.data.filter (fun c => c ≠ '*' && c ≠ '#')),
      c ∈ s.data.filter (fun c => c ≠ '*' && c ≠ '#') :=
    fun c hc => mem_stripChars c _ hc
  have htb : ¬ '`' ∈ stripChars
      (s.data.filter (fun c => c ≠ '*' && c ≠ '#')) :=
    fun hc => h (List.mem_of_mem_filter (ht _ hc))
  rw [h1]
  unfold cleanAI
  show (⟨stripChars (((stripTrailFence (stripJsonFence (stripChars
      (s.data.filter (fun c => c ≠ '*' && c ≠ '#'))))).filter
      (fun c => c ≠ '*' && c ≠ '#')))⟩ : String) = _
  rw [stripJsonFence_id _ htb, stripTrailFence_id _ htb]
  rw [List.filter_eq_self.mpr (fun c hc => List.of_mem_filter (ht c hc))]
  rw [stripChars_idem]

/-- The emphasis pass is the identity without its marker. -/
theorem emphSub_id (m : Char) (k : Nat) :
    ∀ (fuel : Nat) (l : List Char), (∀ c ∈ l, c ≠ m) →
      emphSub m k fuel l = l := by
  intro fuel
  induction fuel with
  | zero => intro l _; cases l <;> rfl
  | succ fuel ih =>
    intro l hl
    cases l with
    | nil => rfl
    | cons c rest =>
      rw [emphSub, if_neg (hl c (List.mem_cons_self _ _)),
        ih rest (fun d hd => hl d (List.mem_cons_of_mem _ hd))]

/-- The header pass is the identity without a hash. -/
theorem headerSub_id :
    ∀ (fuel : Nat) (l : List Char), (∀ c ∈ l, c ≠ '#') →
      headerSub fuel l = l := by
  intro fuel
  induction fuel with
  | zero => intro l _; cases l <;> rfl
  | succ fuel ih =>
    intro l hl
    cases l with
    | nil => rfl
    | cons c rest =>
      rw [headerSub, if_neg (hl c (List.mem_cons_self _ _)),
        ih rest (fun d hd => hl d (List.mem_cons_of_mem _ hd))]

/-- No link match starts without an opening bracket. -/
theorem linkTry_none (l : List Char) (hl : ∀ c ∈ l, c ≠ '[') :
    linkTry l = none := by
  cases l with
  | nil => rfl
  | cons c rest =>
    have hc : c ≠ '[' := hl c (List.mem_cons_self _ _)
    unfold linkTry
    split
    · rename_i heq
      exact absurd (List.head_eq_of_cons_eq heq.symm).symm hc
    · rfl

/-- The link pass is the identity without an opening bracket. -/
theorem linkSub_id :
    ∀ (fuel : Nat) (l : List Char), (∀ c ∈ l, c ≠ '[') →
      linkSub fuel l = l := by
  intro fuel
  induction fuel with
  | zero => intro l _; cases l <;> rfl
  | succ fuel ih =>
    intro l hl
    cases l with
    | nil => rfl
    | cons c rest =>
      have hrest : ∀ d ∈ rest, d ≠ '[' :=
        fun d hd => hl d (List.mem_cons_of_mem _ hd)
      by_cases hc : c = '!'
      · subst hc
        rw [linkSub, if_pos rfl, linkTry_none rest hrest, ih rest hrest]
      · rw [linkSub, if_neg hc,
          if_neg (hl c (List.mem_cons_self _ _)), ih rest hrest]

/-- No bullet-marker match without a marker character. -/
theorem markerTry_none (markers : List Char) (l : List Char)
    (h : ∀ c ∈ l, markers.contains c = false) :
    markerTry markers l = none := by
  simp only [markerTry]
  split
  · rename_i c rest₂ heq
    rw [if_neg]
    intro hcont
    have hcl : c ∈ l := by
      have : c ∈ l.drop (l.takeWhile isPySpace).length := by
        rw [heq]; exact List.mem_cons_self _ _
      exact (List.drop_sublist _ _).mem this
    rw [h c hcl] at hcont
    exact Bool.false_ne_true hcont
  · rfl

/-- No numbered-list match without a digit. -/
theorem numberTry_none (l : List Char)
    (h : ∀ c ∈ l, c.isDigit = false) :
    numberTry l = none := by
  unfold numberTry
  rw [if_neg]
  simp only [ne_eq, not_not]
  cases hrest : l.drop (l.takeWhile isPySpace).length with
  | nil => rfl
  | cons c rest₂ =>
    have hcl : c ∈ l := by
      have : c ∈ l.drop (l.takeWhile isPySpace).length := by
        rw [hrest]; exact List.mem_cons_self _ _
      exact (List.drop_sublist _ _).mem this
    rw [List.takeWhile_cons_of_neg (by simp [h c hcl])]

/-- A line-anchored pass is the identity when its matcher never
fires. -/
theorem lineAnchorSub_id (try₀ : List Char → Option (List Char × Bool))
    (P : Char → Prop)
    (htry : ∀ x : List Char, (∀ c ∈ x, P c) → try₀ x = none) :
    ∀ (fuel : Nat) (att : Bool) (l : List Char), (∀ c ∈ l, P c) →
      lineAnchorSub try₀ fuel att l = l := by
  intro fuel
  induction fuel with
  | zero => intro att l _; cases l <;> rfl
  | succ fuel ih =>
    intro att l hl
    cases l with
    | nil => rfl
    | cons c rest =>
      have hrest : ∀ d ∈ rest, P d :=
        fun d hd => hl d (List.mem_cons_of_mem _ hd)
      cases att with
      | true =>
        rw [lineAnchorSub, if_pos rfl, htry _ hl, ih _ rest hrest]
      | false =>
        rw [lineAnchorSub, if_neg (by simp), ih _ rest hrest]

/-- The newline-collapsing pass is the identity without newlines. -/
theorem newline3Sub_id :
    ∀ (fuel : Nat) (l : List Char), (∀ c ∈ l, c ≠ '\n') →
      newline3Sub fuel l = l := by
  intro fuel
  induction fuel with
  | zero => intro l _; cases l <;> rfl
  | succ fuel ih =>
    intro l hl
    cases l with
    | nil => rfl
    | cons c rest =>
      rw [newline3Sub, if_neg (hl c (List.mem_cons_self _ _)),
        ih rest (fun d hd => hl d (List.mem_cons_of_mem _ hd))]

/-- The whitespace-collapsing pass is the identity without double
whitespace. -/
theorem spaces2Sub_id :
    ∀ (fuel : Nat) (l : List Char), noDoubleWS l = true →
      spaces2Sub fuel l = l := by
  intro fuel
  induction fuel with
  | zero => intro l _; cases l <;> rfl
  | succ fuel ih =>
    intro l hnd
    cases l with
    | nil => rfl
    | cons c rest =>
      have hrest : noDoubleWS rest = true := by
        cases rest with
        | nil => rfl
        | cons d rest' =>
          exact ((Bool.and_eq_true _ _).mp hnd).2
      by_cases hc : isPySpace c = true
      · have hws : (c :: rest).takeWhile isPySpace = [c] := by
          rw [List.takeWhile_cons_of_pos hc]
          cases rest with
          | nil => rfl
          | cons d rest' =>
            have hnotd : isPySpace d = false := by
              have := ((Bool.and_eq_true _ _).mp hnd).1
              rw [Bool.not_eq_true'] at this
              rcases Bool.and_eq_false_iff.mp this with h | h
              · rw [h] at hc; exact absurd hc (by simp)
              · exact h
            rw [List.takeWhile_cons_of_neg (by simp [hnotd])]
        rw [spaces2Sub, if_pos hc, hws]
        simp only [List.length_cons, List.length_nil]
        rw [if_neg (by omega), ih rest hrest]
      · rw [spaces2Sub, if_neg hc, ih rest hrest]

/-- Stripping is the identity without edge whitespace. -/
theorem stripChars_id (l : List Char)
    (hh : (match l.head? with
      | some c => !isPySpace c | none => true) = true)
    (hl : (match l.getLast? with
      | some c => !isPySpace c | none => true) = true) :
    stripChars l = l := by
  unfold stripChars
  have hdw : l.dropWhile isPySpace = l := by
    cases l with
    | nil => rfl
    | cons c rest =>
      simp only [List.head?_cons] at hh
      rw [List.dropWhile_cons_of_neg (by simpa using hh)]
  rw [hdw]
  unfold dropTrail
  cases hrev : l.reverse with
  | nil =>
    have : l = [] := by simpa using congrArg List.reverse hrev
    simp [this]
  | cons c rest =>
    have hlast : l.getLast? = some c := by
      rw [← List.head?_reverse, hrev, List.head?_cons]
    rw [hlast] at hl
    rw [List.dropWhile_cons_of_neg (by simpa using hl), ← hrev,
      List.reverse_reverse]

/-- Prose characters are not among the removed special characters. -/
theorem proseChar_not_special :
    ∀ c : Char, proseChar c = true → (!specialChars.contains c) = true := by
  intro c hc
  by_contra hne
  have hmem : c ∈ specialChars := by
    simpa using hne
  have : proseChar c = false := by
    fin_cases hmem <;> decide
  rw [this] at hc
  exact Bool.false_ne_true hc

/-- A prose character differs from any non-prose character. -/
theorem proseChar_ne (c : Char) (b : Char) (hb : proseChar b = false)
    (hc : proseChar c = true) : c ≠ b := by
  intro he
  subst he
  rw [hb] at hc
  exact Bool.false_ne_true hc

/-- A letter is not a digit. -/
theorem isAlpha_not_isDigit (c : Char) (h : c.isAlpha = true) :
    c.isDigit = false := by
  unfold Char.isAlpha Char.isUpper Char.isLower at h
  unfold Char.isDigit
  rw [Bool.or_eq_true, Bool.and_eq_true, Bool.and_eq_true] at h
  simp only [decide_eq_true_eq, ge_iff_le, UInt32.le_def, BitVec.le_def] at h
  simp only [Bool.and_eq_false_iff, decide_eq_false_iff_not, ge_iff_le,
    UInt32.le_def, BitVec.le_def]
  have h48 : (UInt32.toBitVec 48).toNat = 48 := by decide
  have h57 : (UInt32.toBitVec 57).toNat = 57 := by decide
  have h65 : (UInt32.toBitVec 65).toNat = 65 := by decide
  have h90 : (UInt32.toBitVec 90).toNat = 90 := by decide
  have h97 : (UInt32.toBitVec 97).toNat = 97 := by decide
  have h122 : (UInt32.toBitVec 122).toNat = 122 := by decide
  omega

/-- Prose characters are not digits. -/
theorem proseChar_not_digit (c : Char) (h : proseChar c = true) :
    c.isDigit = false := by
  unfold proseChar at h
  rcases Bool.or_eq_true _ _ |>.mp h with ha | hm
  · exact isAlpha_not_isDigit c ha
  · have hmem : c ∈ ([' ', '.', ',', '?', '!', ';', ':'] : List Char) := by
      simpa using hm
    fin_cases hmem <;> decide

/-- The display-text cleaning is the identity on plain prose. -/
theorem cleanText_id_of_plainProse (s : String) (h : plainProse s = true) :
    cleanText s = s := by
  unfold plainProse at h
  rw [Bool.and_eq_true, Bool.and_eq_true, Bool.and_eq_true] at h
  obtain ⟨⟨⟨hall, hnd⟩, hh⟩, hl⟩ := h
  have hall' : ∀ c ∈ s.data, proseChar c = true :=
    fun c hc => List.all_eq_true.mp hall c hc
  by_cases hs : s = ""
  · rw [cleanText, if_pos hs, hs]
  · have hstar : ∀ c ∈ s.data, c ≠ '*' :=
      fun c hc => proseChar_ne c '*' (by decide) (hall' c hc)
    have hhash : ∀ c ∈ s.data, c ≠ '#' :=
      fun c hc => proseChar_ne c '#' (by decide) (hall' c hc)
    have htick : ∀ c ∈ s.data, c ≠ '`' :=
      fun c hc => proseChar_ne c '`' (by decide) (hall' c hc)
    have hbrack : ∀ c ∈ s.data, c ≠ '[' :=
      fun c hc => proseChar_ne c '[' (by decide) (hall' c hc)
    have hund : ∀ c ∈ s.data, c ≠ '_' :=
      fun c hc => proseChar_ne c '_' (by decide) (hall' c hc)
    have hnl : ∀ c ∈ s.data, c ≠ '\n' :=
      fun c hc => proseChar_ne c '\n' (by decide) (hall' c hc)
    have hmk : ∀ c ∈ s.data, (['-', '*', '+'] : List Char).contains c
        = false := by
      intro c hc
      by_contra hne
      have hct : (['-', '*', '+'] : List Char).contains c = true := by
        revert hne
        cases hcc : (['-', '*', '+'] : List Char).contains c <;> simp
      have hmem : c ∈ (['-', '*', '+'] : List Char) := by simpa using hct
      have hpc : proseChar c = false := by fin_cases hmem <;> decide
      have hq := hall' c hc
      rw [hpc] at hq
      exact Bool.false_ne_true hq
    have hdig : ∀ c ∈ s.data, c.isDigit = false :=
      fun c hc => proseChar_not_digit c (hall' c hc)
    unfold cleanText
    rw [if_neg hs]
    simp only []
    rw [emphSub_id '*' 2 _ _ hstar]
    rw [headerSub_id _ _ hhash]
    rw [emphSub_id '`' 3 _ _ htick]
    rw [linkSub_id _ _ hbrack]
    rw [emphSub_id '_' 2 _ _ hund]
    rw [lineAnchorSub_id (markerTry ['-', '*', '+'])
      (fun c => (['-', '*', '+'] : List Char).contains c = false)
      (fun x hx => markerTry_none _ x hx) _ _ _ hmk]
    rw [lineAnchorSub_id numberTry (fun c => c.isDigit = false)
      (fun x hx => numberTry_none x hx) _ _ _ hdig]
    rw [newline3Sub_id _ _ hnl]
    rw [spaces2Sub_id _ _ hnd]
    rw [List.filter_eq_self.mpr
      (fun c hc => proseChar_not_special c (hall' c hc))]
    rw [stripChars_id s.data hh hl]

/-- C9 (counterexample): neither cleaning function is idempotent.  A
star guarding a ```json fence is removed on the first JSON-fence pass,
exposing a fence that only the second pass strips; and a backtick pair
separated by a blank line is not code-fenced on the first display pass,
but becomes a fenced pair once the blank line collapses, so the second
pass strips it. -/
theorem C9_counterexample :
    cleanAI (cleanAI "*```json 5") ≠ cleanAI "*```json 5" ∧
    cleanText (cleanText "`a\n\nb`") ≠ cleanText "`a\n\nb`" := by
  refine ⟨by decide, by decide⟩

/-- C9 (amended): the JSON-fence cleaning is idempotent on every
backtick-free string, and the display-text cleaning acts as the
identity (hence idempotently, altering nothing) on plain prose with no
markdown markers, no double whitespace and no edge whitespace. -/
theorem C9_cleaning_amended :
    (∀ s : String, ¬ '`' ∈ s.data → cleanAI (cleanAI s) = cleanAI s) ∧
    (∀ s : String, plainProse s = true →
      cleanText s = s ∧ cleanText (cleanText s) = cleanText s) := by
  constructor
  · exact cleanAI_idem_no_backtick
  · intro s hp
    have h1 := cleanText_id_of_plainProse s hp
    exact ⟨h1, by rw [h1, h1]⟩

/-- C9 (witness): the amended theorem applied to concrete strings. -/
theorem C9_witness :
    cleanAI (cleanAI "hello") = cleanAI "hello" ∧
    cleanText "The quick brown fox." = "The quick brown fox." :=
  ⟨C9_cleaning_amended.1 "hello" (by decide),
   (C9_cleaning_amended.2 "The quick brown fox." (by decide)).1⟩

/-- C2 (counterexample): with the AI client failing on every call, the
resume "python experience" against the job description "python" yields
an empty missing-skill list, and then `_create_resources` returns an
empty mapping — the `resources` field is left in its initial empty
state, contradicting the claim that no field ever is. -/
theorem C2_counterexample :
    (analyzeAllFail id wsTok wnEmpty emConst
      "python experience" "python").resources = [] ∧
    (analyzeAllFail id wsTok wnEmpty emConst
      "python experience" "python").skillsAnalysis.missingSkills = [] := by
  constructor <;> decide

/-- C2 (amended): when every AI call fails, the report returned by
`analyze` has every top-level field present by construction, the
project list is non-empty with at most two entries, the job and
interview-question lists are non-empty, the error list is non-empty,
and the resources mapping and learning roadmap are empty exactly when
the missing-skill list is empty (so they can remain in their initial
empty state when no skills are missing). -/
theorem C2_report_population (σ : List String → List String)
    (tok : String → List String) (wn : String → List String)
    (em : Nat → String) (resumeText jobDescription : String) :
    (analyzeAllFail σ tok wn em resumeText jobDescription).projects ≠ [] ∧
    (analyzeAllFail σ tok wn em resumeText jobDescription).projects.length ≤ 2 ∧
    (analyzeAllFail σ tok wn em resumeText jobDescription).jobs ≠ [] ∧
    (analyzeAllFail σ tok wn em resumeText jobDescription).interviewQuestions ≠ [] ∧
    (analyzeAllFail σ tok wn em resumeText jobDescription).errors ≠ [] ∧
    ((analyzeAllFail σ tok wn em resumeText jobDescription).resources = [] ↔
      (analyzeAllFail σ tok wn em resumeText
        jobDescription).skillsAnalysis.missingSkills = []) ∧
    ((analyzeAllFail σ tok wn em resumeText jobDescription).learningRoadmap = [] ↔
      (analyzeAllFail σ tok wn em resumeText
        jobDescription).skillsAnalysis.missingSkills = []) := by
  simp only [analyzeAllFail]
  exact ⟨(fallbackProjects_bounds _ _).1, (fallbackProjects_bounds _ _).2,
    fallbackJobs_ne_nil _ _, fallbackInterview_ne_nil _ _ _,
    by simp, createResources_eq_nil_iff _, fallbackRoadmap_eq_nil_iff _⟩

/-- C8 (counterexample): two runs that differ only in the unspecified
set-enumeration order (identity versus reversal, both admissible
permutations) return different `missing_skills` lists on the same
input, so the all-fallback run of `analyze` is not deterministic
across processes. -/
theorem C8_counterexample :
    SetEnum id ∧ SetEnum (fun l : List String => l.reverse) ∧
    (analyzeAllFail id wsTok wnEmpty emConst "zzz qqq"
        "Python and JavaScript please").skillsAnalysis.missingSkills ≠
      (analyzeAllFail (fun l : List String => l.reverse) wsTok wnEmpty emConst
        "zzz qqq" "Python and JavaScript please").skillsAnalysis.missingSkills :=
  ⟨fun l => List.Perm.refl l, fun l => l.reverse_perm, by decide⟩

/-- C8 (amended): across any two all-fallback runs (any two admissible
set-enumeration orders) on the same input, `keyword_repetitions` is
identical; `ats_score` is identical whenever the deduplicated fallback
keyword list fits the 15-item cap; and `missing_skills` agrees up to
order whenever the skill-gap set fits the 8-item cap. -/
theorem C8_fallback_determinism (σ₁ σ₂ : List String → List String)
    (tok : String → List String) (wn : String → List String)
    (em : Nat → String) (resumeText jobDescription : String)
    (h1 : SetEnum σ₁) (h2 : SetEnum σ₂) :
    (analyzeAllFail σ₁ tok wn em resumeText
        jobDescription).skillsAnalysis.keywordRepetitions =
      (analyzeAllFail σ₂ tok wn em resumeText
        jobDescription).skillsAnalysis.keywordRepetitions ∧
    ((fallbackKeywordList jobDescription).dedup.length ≤ 15 →
      (analyzeAllFail σ₁ tok wn em resumeText jobDescription).atsScore =
        (analyzeAllFail σ₂ tok wn em resumeText jobDescription).atsScore) ∧
    ((gapsDiff (enhancedFallbackAnalysis resumeText).resumeSkills
        (fallbackSkillExtraction jobDescription)).length ≤ 8 →
      List.Perm
        (analyzeAllFail σ₁ tok wn em resumeText
          jobDescription).skillsAnalysis.missingSkills
        (analyzeAllFail σ₂ tok wn em resumeText
          jobDescription).skillsAnalysis.missingSkills) := by
  refine ⟨rfl, ?_, ?_⟩
  · intro hle
    simp only [analyzeAllFail, fallbackKeywordExtraction]
    have e1 : (σ₁ (fallbackKeywordList jobDescription).dedup).take 15
        = σ₁ (fallbackKeywordList jobDescription).dedup :=
      List.take_of_length_le (by rw [(h1 _).length_eq]; exact hle)
    have e2 : (σ₂ (fallbackKeywordList jobDescription).dedup).take 15
        = σ₂ (fallbackKeywordList jobDescription).dedup :=
      List.take_of_length_le (by rw [(h2 _).length_eq]; exact hle)
    rw [e1, e2]
    exact calcAtsScore_perm_keywords _ _ _ _ _ ((h1 _).trans (h2 _).symm)
  · intro hle
    simp only [analyzeAllFail, findGaps]
    have e1 : (σ₁ (gapsDiff (enhancedFallbackAnalysis resumeText).resumeSkills
          (fallbackSkillExtraction jobDescription))).take 8
        = σ₁ (gapsDiff (enhancedFallbackAnalysis resumeText).resumeSkills
          (fallbackSkillExtraction jobDescription)) :=
      List.take_of_length_le (by rw [(h1 _).length_eq]; exact hle)
    have e2 : (σ₂ (gapsDiff (enhancedFallbackAnalysis resumeText).resumeSkills
          (fallbackSkillExtraction jobDescription))).take 8
        = σ₂ (gapsDiff (enhancedFallbackAnalysis resumeText).resumeSkills
          (fallbackSkillExtraction jobDescription)) :=
      List.take_of_length_le (by rw [(h2 _).length_eq]; exact hle)
    rw [e1, e2]
    exact (h1 _).trans (h2 _).symm

/-- C8 (witness): the amended determinism theorem applied to the
identity and reversal enumerations on a concrete input whose keyword
list and skill gap both fit their caps. -/
theorem C8_witness :
    SetEnum id ∧ SetEnum (fun l : List String => l.reverse) ∧
    (analyzeAllFail id wsTok wnEmpty emConst "zzz qqq"
        "Python and JavaScript please").atsScore =
      (analyzeAllFail (fun l : List String => l.reverse) wsTok wnEmpty emConst
        "zzz qqq" "Python and JavaScript please").atsScore ∧
    List.Perm
      (analyzeAllFail id wsTok wnEmpty emConst "zzz qqq"
        "Python and JavaScript please").skillsAnalysis.missingSkills
      (analyzeAllFail (fun l : List String => l.reverse) wsTok wnEmpty emConst
        "zzz qqq" "Python and JavaScript please").skillsAnalysis.missingSkills := by
  have hid : SetEnum id := fun l => List.Perm.refl l
  have hrev : SetEnum (fun l : List String => l.reverse) :=
    fun l => l.reverse_perm
  have h := C8_fallback_determinism id (fun l : List String => l.reverse)
    wsTok wnEmpty emConst "zzz qqq" "Python and JavaScript please" hid hrev
  exact ⟨hid, hrev, h.2.1 (by decide), h.2.2 (by decide)⟩

end HireIQ
